import Mathlib

/-!
# Verification of the demand-forecasting core (ToshiEna/demo11)

Shallow embedding of `src/models/__init__.py` (`DemandDataProcessor`) and
`src/models/predictor.py` (`DemandPredictor`) in Lean 4, together with
theorems settling the frozen claims about the spec.

Modelling conventions:
* Python floats are embedded as `ℚ`; `NaN` / missing values are `Cell.null`.
* A pandas DataFrame is a `Frame`: an ordered list of column names plus rows,
  each row an association list from column name to `Cell`.
* External sklearn artifacts (the three regression estimators, the
  `StandardScaler`, the seeded `train_test_split` shuffle) are parameters of
  the embedded functions: the repository treats them as black boxes behind
  `fit`/`predict`/`transform` interfaces, so the embedding quantifies over
  them.  A fitted model is a function from a feature row (`List ℚ`, the
  values of the selected feature columns in order) to a prediction.
* Dates are days since 1970-01-01 (`Nat`); calendar fields are computed by
  the standard civil-from-days algorithm, matching pandas `.dt.year`,
  `.dt.month`, `.dt.dayofweek` (Monday = 0) and `.dt.quarter`.
-/

set_option maxHeartbeats 1000000
set_option maxRecDepth 4000

namespace Demo11

/-- A DataFrame cell: a number, a string, or a missing value (`NaN`/`None`). -/
inductive Cell where
  | num (q : ℚ)
  | str (s : String)
  | null
  deriving DecidableEq

/-- A DataFrame row: association list from column name to cell value. -/
abbrev Row := List (String × Cell)

/-- Reading a cell of a row by column name (missing key reads as `null`). -/
def Row.getCell (r : Row) (c : String) : Cell :=
  match r.find? (fun p => p.1 = c) with
  | some p => p.2
  | none => Cell.null

/-- Writing a cell of a row (pandas column assignment on one row):
replaces the first binding of the column, or appends a new one. -/
def Row.setCell (r : Row) (c : String) (v : Cell) : Row :=
  match r with
  | [] => [(c, v)]
  | p :: ps => if p.1 = c then (c, v) :: ps else p :: Row.setCell ps c v

/-- A pandas DataFrame: ordered column names and rows. -/
structure Frame where
  cols : List String
  rows : List Row
  deriving DecidableEq

/-! ## Feature Builder: lag and moving-average columns

Embedding of the body of the per-(store, sku) loop in
`DemandDataProcessor.preprocess_data` (src/models/__init__.py, lines
130-144).  The loop masks the frame to one (store, sku) partition — which is
chronologically ordered because `load_data` sorted by `sales_date` — and
assigns `store_sku_data['sold_qty'].shift(lag)` for lag ∈ {1, 7, 30} and
`store_sku_data['sold_qty'].rolling(window=7).mean()` back to the masked
positions. -/

/-- One observed row as the lag loop sees it: entity key and quantity. -/
structure DemandRow where
  store : String
  sku : String
  sold_qty : ℚ
  deriving DecidableEq

/-- pandas `Series.shift(k)`: the first `k` entries become `NaN`, the rest
are the original values displaced by `k`; length is preserved. -/
def shift (k : Nat) (qs : List ℚ) : List (Option ℚ) :=
  List.replicate (min k qs.length) none ++ (qs.take (qs.length - k)).map some

/-- pandas `Series.rolling(window=w).mean()`: entry `i` is the mean of the
`w` entries ending at `i` inclusive, `NaN` while fewer than `w` entries have
accumulated. -/
def rollingMean (w : Nat) (qs : List ℚ) : List (Option ℚ) :=
  (List.range qs.length).map (fun i =>
    if i + 1 < w then none
    else some ((((qs.take (i + 1)).drop (i + 1 - w)).sum) / (w : ℚ)))

/-- The chronologically ordered quantity series of one (store, sku)
partition: `self.data[mask]['sold_qty']` where
`mask = (store == s) & (sku == k)`. -/
def partitionQuantities (store sku : String) (rows : List DemandRow) : List ℚ :=
  (rows.filter (fun r => r.store = store ∧ r.sku = sku)).map (fun r => r.sold_qty)

/-- The `sold_qty_lag_k` column assigned to a partition:
`store_sku_data['sold_qty'].shift(lag)`. -/
def entityLagColumn (k : Nat) (qs : List ℚ) : List (Option ℚ) := shift k qs

/-- The `sold_qty_ma_7` column assigned to a partition:
`store_sku_data['sold_qty'].rolling(window=7).mean()`. -/
def entityMa7Column (qs : List ℚ) : List (Option ℚ) := rollingMean 7 qs

/-! ## Label encoding

`DemandPredictor.prepare_features` (predictor.py lines 45-64) runs sklearn
`LabelEncoder`s over the `product_id` and `weather_condition` columns.  A
fitted encoder is its `classes_` array; `fit_transform` builds the sorted
distinct values (`np.unique`) and maps each value to its index; `transform`
maps a value to its index in `classes_` (sklearn uses an enumeration table
for string dtypes).  The unseen-category handling of lines 53-64 maps values
outside `classes_` to `"unknown"`, appending `"unknown"` to `classes_` when
absent. -/

/-- Insertion into a `≤`-sorted list of strings. -/
def insertSorted (s : String) : List String → List String
  | [] => [s]
  | x :: xs => if s ≤ x then s :: x :: xs else x :: insertSorted s xs

/-- Insertion sort on strings (the sorting inside `np.unique`). -/
def sortStrings (l : List String) : List String := l.foldr insertSorted []

/-- Collapse adjacent duplicates (the dedup inside `np.unique`). -/
def dedupAdj : List String → List String
  | [] => []
  | [x] => [x]
  | x :: y :: xs => if x = y then dedupAdj (y :: xs) else x :: dedupAdj (y :: xs)

/-- `np.unique` on strings: sorted distinct values. -/
def sortedUnique (l : List String) : List String := dedupAdj (sortStrings l)

/-- pandas `.astype(str)` on one cell. -/
def Cell.toStr : Cell → String
  | .num q => toString q
  | .str s => s
  | .null => "nan"

/-- Numeric reading of a cell (used after encoding and `fillna(0)`). -/
def Cell.toQ : Cell → ℚ
  | .num q => q
  | _ => 0

/-- The predictor's `label_encoders` dict: column name ↦ `classes_`. -/
abbrev Encoders := List (String × List String)

/-- Dictionary lookup in the encoders map. -/
def lookupEnc (encs : Encoders) (c : String) : Option (List String) :=
  match encs.find? (fun p => p.1 = c) with
  | some p => some p.2
  | none => none

/-- Dictionary write in the encoders map (replace or insert). -/
def updateEnc (encs : Encoders) (c : String) (classes : List String) : Encoders :=
  if (encs.find? (fun p => p.1 = c)).isSome then
    encs.map (fun p => if p.1 = c then (c, classes) else p)
  else encs ++ [(c, classes)]

/-- Index of a string in a `classes_` list (the encoder's `transform` of one
value; values are always members in the embedded flows). -/
def idxOf : List String → String → Nat
  | [], _ => 0
  | c :: cs, s => if c = s then 0 else idxOf cs s + 1

/-- One iteration of the categorical-encoding loop of `prepare_features`
(predictor.py lines 46-64) for column `c`: `fit_transform` when no encoder
exists for `c` yet, otherwise the unseen→`"unknown"` mapping followed by
`transform`. Columns absent from the batch are skipped. -/
def encodeCol (encs : Encoders) (f : Frame) (c : String) : Encoders × Frame :=
  if f.cols.contains c then
    match lookupEnc encs c with
    | none =>
        let classes := sortedUnique (f.rows.map (fun r => (r.getCell c).toStr))
        (updateEnc encs c classes,
         { f with rows := f.rows.map (fun r =>
             r.setCell c (Cell.num (idxOf classes (r.getCell c).toStr))) })
    | some classes =>
        let classes2 := if classes.contains "unknown" then classes else classes ++ ["unknown"]
        (updateEnc encs c classes2,
         { f with rows := f.rows.map (fun r =>
             let s := (r.getCell c).toStr
             r.setCell c (Cell.num (idxOf classes2
               (if classes.contains s then s else "unknown")))) })
  else (encs, f)

/-! ## Feature-column selection (predictor.py lines 66-88) -/

/-- The hard-coded numerical feature list of predictor.py lines 67-71. -/
def baseFeatureCols : List String :=
  ["year", "month", "day_of_week", "quarter", "price", "promotion",
   "seasonality_factor", "product_id"]

/-- `String.startsWith`, computed structurally on the character lists (the
library version blocks kernel reduction). -/
def strStartsWith (s pre : String) : Bool :=
  pre.toList.isPrefixOf s.toList

/-- The feature-column set chosen by `prepare_features` from a batch's
columns: the hard-coded list, plus every batch column whose name starts with
`demand_lag_`, plus `weather_condition` when present, filtered to the
columns the batch actually has. -/
def featureColsSelected (batchCols : List String) : List String :=
  let lagCols := batchCols.filter (fun c => strStartsWith c "demand_lag_")
  let withLag := baseFeatureCols ++ lagCols
  let withWeather :=
    if batchCols.contains "weather_condition" then withLag ++ ["weather_condition"]
    else withLag
  withWeather.filter (fun c => batchCols.contains c)

/-- `fillna(0)` on one cell. -/
def fillCell : Cell → Cell
  | Cell.null => Cell.num 0
  | v => v

/-- `DemandPredictor.prepare_features` (predictor.py lines 37-89): empty
input is returned unchanged; otherwise encode `product_id` and
`weather_condition`, select the feature columns, and `fillna(0)`.  Returns
the updated encoder dict (the method mutates `self.label_encoders`) and the
selected frame; the caller reads `self.feature_columns` off the frame's
`cols`. -/
def prepare_features (encs : Encoders) (f : Frame) : Encoders × Frame :=
  if f.rows.isEmpty then (encs, f)
  else
    let p1 := encodeCol encs f "product_id"
    let p2 := encodeCol p1.1 p1.2 "weather_condition"
    let selected := featureColsSelected p2.2.cols
    (p2.1,
     { cols := selected,
       rows := p2.2.rows.map (fun r => selected.map (fun c =>
         (c, fillCell (r.getCell c)))) })

/-- The numeric code `encodeCol` assigns to a (stringified) value `s` given
the looked-up `classes_` of its column: index in the freshly fitted
`classes_` when no encoder exists, otherwise index of `s` — or of the
`"unknown"` sentinel — in the (possibly `"unknown"`-extended) classes. -/
def encValueCl (ocl : Option (List String)) (s : String) : ℚ :=
  match ocl with
  | none => (idxOf (sortedUnique [s]) s : ℚ)
  | some classes =>
      let classes2 := if classes.contains "unknown" then classes else classes ++ ["unknown"]
      (idxOf classes2 (if classes.contains s then s else "unknown") : ℚ)

/-- The numeric code `encodeCol` assigns to the (stringified) value `s` of
column `c` under the encoder dict `encs`. -/
def encValue (encs : Encoders) (c : String) (s : String) : ℚ :=
  encValueCl (lookupEnc encs c) s

/-- The encoder-dict update `encodeCol` performs for column `c` holding the
single (stringified) value `s`. -/
def encUpd (encs : Encoders) (c : String) (s : String) : Encoders :=
  match lookupEnc encs c with
  | none => updateEnc encs c (sortedUnique [s])
  | some classes =>
      updateEnc encs c (if classes.contains "unknown" then classes else classes ++ ["unknown"])

/-- The encoder dict after `prepare_features` on a one-row frame: the
`product_id` and `weather_condition` encoders updated (when those columns
are present) from the row's values. -/
def prepOneEnc (encs : Encoders) (cols : List String) (r : Row) : Encoders :=
  let e1 :=
    if cols.contains "product_id" then
      encUpd encs "product_id" (r.getCell "product_id").toStr
    else encs
  if cols.contains "weather_condition" then
    encUpd e1 "weather_condition" (r.getCell "weather_condition").toStr
  else e1

/-- The row after the categorical-encoding pass of `prepare_features` on a
one-row frame. -/
def prepOneRow (encs : Encoders) (cols : List String) (r : Row) : Row :=
  let r1 :=
    if cols.contains "product_id" then
      r.setCell "product_id" (Cell.num (encValue encs "product_id" (r.getCell "product_id").toStr))
    else r
  let e1 :=
    if cols.contains "product_id" then
      encUpd encs "product_id" (r.getCell "product_id").toStr
    else encs
  if cols.contains "weather_condition" then
    r1.setCell "weather_condition"
      (Cell.num (encValue e1 "weather_condition" (r1.getCell "weather_condition").toStr))
  else r1

/-! ## Model bank, metrics and training (predictor.py lines 21-157) -/

/-- A fitted regression model: external sklearn artifact behind `predict`,
applied to one feature row (selected-column values in order). -/
abbrev Model := List ℚ → ℚ

/-- A fitted `StandardScaler`: external sklearn artifact behind `transform`,
applied to one feature row. -/
abbrev Scaler := List ℚ → List ℚ

/-- Per-model held-out metrics (predictor.py lines 130-139).  `rmse` is
`sqrt mse`, irrational in general; it is determined by `mse` and read by no
downstream code, so the embedding stores `mae`, `mse` and `r2`. -/
structure Metrics where
  mae : ℚ
  mse : ℚ
  r2 : ℚ
  deriving DecidableEq

/-- The deterministic insertion order of the `self.models` dict
(predictor.py lines 25-29). -/
def bankNames : List String := ["random_forest", "gradient_boosting", "linear_regression"]

/-- The predictor's mutable state (the fields assigned in `__init__`,
predictor.py lines 24-35). -/
structure PredictorState where
  models : List (String × Model)
  active_model : String
  scaler : Scaler
  label_encoders : Encoders
  is_trained : Bool
  feature_columns : List String
  model_metrics : List (String × Metrics)

/-- `DemandPredictor.__init__`: fresh state.  The unfitted sklearn
estimators (they are never asked to predict before training, since `predict`
guards on `is_trained`) are modelled by the zero function, the unfitted
scaler by the identity. -/
def initState : PredictorState where
  models := bankNames.map (fun n => (n, fun _ => 0))
  active_model := "random_forest"
  scaler := id
  label_encoders := []
  is_trained := false
  feature_columns := []
  model_metrics := []

/-- Arithmetic mean of a list of rationals. -/
def meanQ (l : List ℚ) : ℚ := l.sum / l.length

/-- `mean_absolute_error`. -/
def maeOf (yTrue yPred : List ℚ) : ℚ :=
  meanQ ((yTrue.zip yPred).map (fun p => |p.1 - p.2|))

/-- `mean_squared_error`. -/
def mseOf (yTrue yPred : List ℚ) : ℚ :=
  meanQ ((yTrue.zip yPred).map (fun p => (p.1 - p.2) ^ 2))

/-- sklearn `r2_score`: `1 - ss_res/ss_tot`, with the degenerate
constant-target convention (`1.0` when both sums vanish, `0.0` when only the
denominator does). -/
def r2Of (yTrue yPred : List ℚ) : ℚ :=
  let ssRes := ((yTrue.zip yPred).map (fun p => (p.1 - p.2) ^ 2)).sum
  let m := meanQ yTrue
  let ssTot := (yTrue.map (fun y => (y - m) ^ 2)).sum
  if ssTot = 0 then (if ssRes = 0 then 1 else 0) else 1 - ssRes / ssTot

/-- Compute the metrics row of predictor.py lines 130-139 for one model's
held-out predictions. -/
def metricsOf (yTrue yPred : List ℚ) : Metrics :=
  { mae := maeOf yTrue yPred, mse := mseOf yTrue yPred, r2 := r2Of yTrue yPred }

/-- The external learning algorithms: for a model name, `fit(X, y)`
producing a fitted model, or `none` when `fit` raises (the exception is
caught by `train`'s `except`). -/
abbrev FitFn := String → List (List ℚ) → List ℚ → Option Model

/-- The result dict of `DemandPredictor.train`: either `{'error': msg}` or
the success report of predictor.py lines 147-154. -/
inductive TrainResult where
  | error (msg : String)
  | success (active : String) (metrics : List (String × Metrics)) (trainN testN : Nat)
  deriving DecidableEq

/-- Values of a row under the given columns, in order. -/
def rowVals (cols : List String) (r : Row) : List ℚ :=
  cols.map (fun c => (r.getCell c).toQ)

/-- The training loop of predictor.py lines 119-139: fit every bank entry in
insertion order — on the scaled matrices for `linear_regression`, on the raw
ones otherwise — and score it on the held-out partition.  sklearn `fit`
mutates the estimator in place, so entries fitted before a raising `fit`
keep their new state while the raising entry and later ones keep their old
one; a raised exception aborts the loop with no metrics (`none`). -/
def fitAll (fits : FitFn) (scaler : Scaler) (Xtr Xte : List (List ℚ)) (ytr yte : List ℚ) :
    List (String × Model) → List (String × Model) × Option (List (String × Metrics))
  | [] => ([], some [])
  | (name, old) :: rest =>
      let Xfit := if name = "linear_regression" then Xtr.map scaler else Xtr
      let Xev := if name = "linear_regression" then Xte.map scaler else Xte
      match fits name Xfit ytr with
      | none => ((name, old) :: rest, none)
      | some m =>
          let met := metricsOf yte (Xev.map m)
          match fitAll fits scaler Xtr Xte ytr yte rest with
          | (models2, some mets) => ((name, m) :: models2, some ((name, met) :: mets))
          | (models2, none) => ((name, m) :: models2, none)

/-- `max(results.keys(), key=lambda k: results[k]['r2'])` (predictor.py line
142): Python's `max` scans in insertion order and keeps the incumbent on
ties, so it returns the first entry attaining the maximal `r2`. -/
def selectBest (mets : List (String × Metrics)) : Option String :=
  match mets with
  | [] => none
  | x :: xs => some ((xs.foldl (fun best y => if best.2.r2 < y.2.r2 then y else best) x).1)

/-- Row-filter for non-null targets (predictor.py lines 101-104), pairing
each feature row with its target value. -/
def validPairs (cols : List String) (xRows : List Row) (ys : List Cell) : List (List ℚ × ℚ) :=
  (xRows.zip ys).filterMap (fun p =>
    match p.2 with
    | Cell.null => none
    | c => some (rowVals cols p.1, c.toQ))

/-- `DemandPredictor.train` (predictor.py lines 91-157).  External
collaborators are parameters: `fits` (the sklearn estimators' `fit`),
`fitScaler` (`StandardScaler.fit` on the training matrix), and `split` (the
seeded `train_test_split`, giving the train/test index lists for a sample
count).  Returns the post-call state and the result dict. -/
def train (fits : FitFn) (fitScaler : List (List ℚ) → Scaler) (split : Nat → List Nat × List Nat)
    (st : PredictorState) (data : Frame) : PredictorState × TrainResult :=
  if data.rows.isEmpty ∨ ¬ data.cols.contains "demand_value" then
    (st, .error "Invalid training data")
  else
    let pf := prepare_features st.label_encoders data
    let st1 := { st with label_encoders := pf.1, feature_columns := pf.2.cols }
    let pairs := validPairs pf.2.cols pf.2.rows (data.rows.map (fun r => r.getCell "demand_value"))
    if pairs.length < 10 then
      (st1, .error "Insufficient data for training (minimum 10 records required)")
    else
      let idx := split pairs.length
      let trainPairs := idx.1.filterMap (fun i => pairs[i]?)
      let testPairs := idx.2.filterMap (fun i => pairs[i]?)
      let Xtr := trainPairs.map (fun p => p.1)
      let ytr := trainPairs.map (fun p => p.2)
      let Xte := testPairs.map (fun p => p.1)
      let yte := testPairs.map (fun p => p.2)
      let scaler := fitScaler Xtr
      match fitAll fits scaler Xtr Xte ytr yte st1.models with
      | (models2, some mets) =>
          match selectBest mets with
          | some best =>
              ({ st1 with models := models2, scaler := scaler, active_model := best,
                          model_metrics := mets, is_trained := true },
               .success best mets Xtr.length Xte.length)
          | none =>
              ({ st1 with models := models2, scaler := scaler },
               .error "Training failed: max() arg is an empty sequence")
      | (models2, none) =>
          ({ st1 with models := models2, scaler := scaler }, .error "Training failed")

end Demo11

namespace Demo11

/-! ## Calendar arithmetic

Dates are days since 1970-01-01.  `civilFromDays` is the standard
civil-from-days algorithm, matching pandas `.dt.year` / `.dt.month`;
`.dt.dayofweek` is Monday = 0 (1970-01-01 was a Thursday);
`.dt.quarter` is `(month - 1) / 3 + 1`. -/

/-- Convert days-since-epoch to (year, month, day). -/
def civilFromDays (d : Nat) : Nat × Nat × Nat :=
  let z := d + 719468
  let era := z / 146097
  let doe := z % 146097
  let yoe := (doe - doe / 1460 + doe / 36524 - doe / 146096) / 365
  let y := yoe + era * 400
  let doy := doe - (365 * yoe + yoe / 4 - yoe / 100)
  let mp := (5 * doy + 2) / 153
  let day := doy - (153 * mp + 2) / 5 + 1
  let m := if mp < 10 then mp + 3 else mp - 9
  ((if m ≤ 2 then y + 1 else y), m, day)

/-- pandas `.dt.year`. -/
def yearOf (d : Nat) : Nat := (civilFromDays d).1

/-- pandas `.dt.month`. -/
def monthOf (d : Nat) : Nat := (civilFromDays d).2.1

/-- pandas `.dt.dayofweek` (Monday = 0). -/
def dayOfWeekOf (d : Nat) : Nat := (d + 3) % 7

/-- pandas `.dt.quarter`. -/
def quarterOf (d : Nat) : Nat := (monthOf d - 1) / 3 + 1

/-- The calendar fields `predict` overrides on the template row. -/
def calendarOf (d : Nat) : Nat × Nat × Nat × Nat :=
  (yearOf d, monthOf d, dayOfWeekOf d, quarterOf d)

/-- `pd.date_range(start, end, freq='D')` on dates: every day from `s` to
`e` inclusive, empty when `s > e`. -/
def dateRange (s e : Nat) : List Nat :=
  if s ≤ e then List.range' s (e - s + 1) else []

/-! ## Forecast engine (predictor.py lines 159-219) -/

/-- A prediction request (src/models/__init__.py lines 47-54); dates as
days since epoch. -/
structure PredictionRequest where
  product_id : String
  start_day : Nat
  end_day : Nat

/-- A forecast point (src/models/__init__.py lines 57-65). -/
structure PredictionResult where
  product_id : String
  prediction_date : Nat
  predicted_demand : ℚ
  confidence_lower : ℚ
  confidence_upper : ℚ
  model_accuracy : Option ℚ
  deriving DecidableEq

/-- Assembly of one `PredictionResult` from the raw model output
(predictor.py lines 201-211): a ±10 % band around the raw prediction, with
the point estimate and the lower bound clamped to ≥ 0. -/
def mkPredictionResult (pid : String) (d : Nat) (prediction : ℚ) (acc : Option ℚ) :
    PredictionResult :=
  let ci := (1 / 10 : ℚ) * prediction
  { product_id := pid
    prediction_date := d
    predicted_demand := max 0 prediction
    confidence_lower := max 0 (prediction - ci)
    confidence_upper := prediction + ci
    model_accuracy := acc }

/-- Dictionary lookup `self.models[name]`. -/
def lookupModel (models : List (String × Model)) (name : String) : Option Model :=
  match models.find? (fun p => p.1 = name) with
  | some p => some p.2
  | none => none

/-- `self.model_metrics.get(name, {}).get('r2')`. -/
def metricsR2 (mets : List (String × Metrics)) (name : String) : Option ℚ :=
  match mets.find? (fun p => p.1 = name) with
  | some p => some p.2.r2
  | none => none

/-- Append a column name when absent (pandas column assignment extends the
column set). -/
def addCol (cols : List String) (c : String) : List String :=
  if cols.contains c then cols else cols ++ [c]

/-- Columns of `latest_data` after the calendar assignments of predictor.py
lines 183-187. -/
def calCols (cols : List String) : List String :=
  addCol (addCol (addCol (addCol (addCol cols "date") "year") "month") "day_of_week") "quarter"

/-- Override the template row's calendar fields with the target day's
(predictor.py lines 183-187). -/
def setCalendar (r : Row) (d : Nat) : Row :=
  ((((r.setCell "date" (Cell.num d)).setCell "year" (Cell.num (yearOf d))).setCell
      "month" (Cell.num (monthOf d))).setCell "day_of_week"
      (Cell.num (dayOfWeekOf d))).setCell "quarter" (Cell.num (quarterOf d))

/-- The asymmetric model invocation of predictor.py lines 195-199 (and, at
fit time, lines 122-127): only `linear_regression` sees scaler-transformed
rows. -/
def applyModel (active : String) (m : Model) (scaler : Scaler) (x : List ℚ) : ℚ :=
  if active = "linear_regression" then m (scaler x) else m x

/-- One iteration of the forecast loop (predictor.py lines 179-213): rebuild
the feature row from the static template with the day's calendar fields,
run `prepare_features` (threading the encoder dict, which the call mutates),
and invoke the active model. -/
def predictStep (st : PredictorState) (m : Model) (dataCols : List String) (template : Row)
    (pid : String) (acc : Option ℚ) (encs : Encoders) (d : Nat) :
    Encoders × PredictionResult :=
  let latest := setCalendar template d
  let pf := prepare_features encs ⟨calCols dataCols, [latest]⟩
  let x := rowVals pf.2.cols (pf.2.rows.headD [])
  (pf.1, mkPredictionResult pid d (applyModel st.active_model m st.scaler x) acc)

/-- The forecast loop: fold the per-day step over the date range, threading
the encoder dict. -/
def predictLoop (step : Encoders → Nat → Encoders × PredictionResult) :
    Encoders → List Nat → List PredictionResult
  | _, [] => []
  | e, d :: ds =>
      let r := step e d
      r.2 :: predictLoop step r.1 ds

/-- `DemandPredictor.predict` (predictor.py lines 159-219): empty when the
predictor is untrained, when the entity has no rows in `data`, or when the
active model is missing from the bank (a `KeyError` caught by the `except`);
otherwise one result per day of the requested range, all synthesized from
the entity's most recent row. -/
def predict (st : PredictorState) (req : PredictionRequest) (data : Frame) :
    List PredictionResult :=
  if st.is_trained = false then []
  else
    let productRows := data.rows.filter (fun r => r.getCell "product_id" = Cell.str req.product_id)
    if productRows.isEmpty then []
    else
      match lookupModel st.models st.active_model with
      | none => []
      | some m =>
          predictLoop
            (predictStep st m data.cols (productRows.getLastD []) req.product_id
              (metricsR2 st.model_metrics st.active_model))
            st.label_encoders (dateRange req.start_day req.end_day)

/-- A small concrete record set used by witnesses: eight observations of
entity (S1, A) with quantities 10..17, interleaved with one row of a second
entity (S2, B). -/
def demoRows : List DemandRow :=
  [⟨"S1", "A", 10⟩, ⟨"S1", "A", 11⟩, ⟨"S2", "B", 99⟩, ⟨"S1", "A", 12⟩,
   ⟨"S1", "A", 13⟩, ⟨"S1", "A", 14⟩, ⟨"S1", "A", 15⟩, ⟨"S1", "A", 16⟩,
   ⟨"S1", "A", 17⟩]

/-! ## Concrete scenarios used by witnesses and counterexamples -/

/-- A trained state whose active model (a fitted sklearn estimator is an
arbitrary real-valued function of the features) outputs −10. -/
def cexState : PredictorState where
  models := [("random_forest", fun _ => -10), ("gradient_boosting", fun _ => 0),
             ("linear_regression", fun _ => 0)]
  active_model := "random_forest"
  scaler := id
  label_encoders := [("product_id", ["A"])]
  is_trained := true
  feature_columns := []
  model_metrics := []

/-- The same trained state with an active model outputting 100. -/
def posState : PredictorState :=
  { cexState with
    models := [("random_forest", fun _ => 100), ("gradient_boosting", fun _ => 0),
               ("linear_regression", fun _ => 0)] }

/-- A one-row loaded record set for entity `"A"`. -/
def cexData : Frame where
  cols := ["product_id", "price"]
  rows := [[("product_id", Cell.str "A"), ("price", Cell.num 5)]]

/-- A one-day prediction request for entity `"A"` (2024-01-01). -/
def cexReq : PredictionRequest where
  product_id := "A"
  start_day := 19723
  end_day := 19723

/-- A frame with no rows. -/
def emptyFrame : Frame := ⟨[], []⟩

/-- Learning algorithms whose `fit` always raises. -/
def nilFits : FitFn := fun _ _ _ => none

/-- A scaler fit returning the identity transform. -/
def idScalerFit : List (List ℚ) → Scaler := fun _ => id

/-- A degenerate index split. -/
def nilSplit : Nat → List Nat × List Nat := fun _ => ([], [])

/-- Five well-formed records for entity `"A"` — too few to train on. -/
def fiveRowData : Frame where
  cols := ["product_id", "demand_value", "price"]
  rows :=
    (List.range 5).map (fun i =>
      [("product_id", Cell.str "A"), ("demand_value", Cell.num (i + 1 : ℕ)),
       ("price", Cell.num 5)])

/-- The column set of `DemandDataProcessor.data` after `load_data` and
`preprocess_data` (src/models/__init__.py lines 80-144), in creation order:
the loaded record fields, the legacy aliases, the calendar fields, then the
lag and moving-average columns. -/
def preprocessedCols : List String :=
  ["sales_date", "store", "sku", "desc", "div", "div_desc", "dept", "dept_desc",
   "sold_qty", "act_sales", "price", "promotion", "promotion_discount",
   "weather_condition", "seasonality_factor", "date", "product_id", "demand_value",
   "year", "month", "day_of_week", "quarter",
   "sold_qty_lag_1", "sold_qty_lag_7", "sold_qty_ma_7", "sold_qty_lag_30"]

/-- Learning algorithms for concrete training runs: every `fit` succeeds and
yields a constant predictor (0, 19/2 and 5 for the forest, the boosting and
the linear model respectively). -/
def wFits : FitFn := fun name _ _ =>
  some (fun _ =>
    if name = "gradient_boosting" then (19 / 2 : ℚ)
    else if name = "linear_regression" then 5 else 0)

/-- A concrete 80/20 index split of ten samples. -/
def wSplit : Nat → List Nat × List Nat := fun _ => ([0, 1, 2, 3, 4, 5, 6, 7], [8, 9])

/-- Ten records for entity `"A"` with demands 1..10 at constant price. -/
def wData : Frame where
  cols := ["product_id", "demand_value", "price"]
  rows := (List.range 10).map (fun i =>
    [("product_id", Cell.str "A"), ("demand_value", Cell.num ((i : ℚ) + 1)),
     ("price", Cell.num 5)])

/-- The concrete training run used by witnesses. -/
def wTrain : PredictorState × TrainResult := train wFits idScalerFit wSplit initState wData

/-- Post-training state of the concrete run. -/
def wState : PredictorState := wTrain.1

/-- Held-out metrics of the concrete run. -/
def wMets : List (String × Metrics) :=
  match wTrain.2 with
  | .success _ m _ _ => m
  | _ => []

/-- Valid training pairs of the concrete run. -/
def wPairs : List (List ℚ × ℚ) :=
  validPairs (prepare_features initState.label_encoders wData).2.cols
    (prepare_features initState.label_encoders wData).2.rows
    (wData.rows.map (fun r => r.getCell "demand_value"))

/-- Training feature matrix of the concrete run. -/
def wXtr : List (List ℚ) :=
  ((wSplit wPairs.length).1.filterMap (fun i => wPairs[i]?)).map (fun p => p.1)

/-- Training targets of the concrete run. -/
def wYtr : List ℚ :=
  ((wSplit wPairs.length).1.filterMap (fun i => wPairs[i]?)).map (fun p => p.2)

/-- Held-out feature matrix of the concrete run. -/
def wXte : List (List ℚ) :=
  ((wSplit wPairs.length).2.filterMap (fun i => wPairs[i]?)).map (fun p => p.1)

/-- Held-out targets of the concrete run. -/
def wYte : List ℚ :=
  ((wSplit wPairs.length).2.filterMap (fun i => wPairs[i]?)).map (fun p => p.2)

/-- A three-day prediction request for entity `"A"` (2024-01-01..03). -/
def wReq : PredictionRequest where
  product_id := "A"
  start_day := 19723
  end_day := 19725

/-- An eight-day prediction request for entity `"A"` (2024-01-01..08): the
first and last days are both Mondays of January 2024, so their calendar
tuples coincide. -/
def wReqTen : PredictionRequest where
  product_id := "A"
  start_day := 19723
  end_day := 19730

theorem shift_length (k : Nat) (qs : List ℚ) : (shift k qs).length = qs.length := by
  simp [shift]
  omega

theorem rollingMean_length (w : Nat) (qs : List ℚ) :
    (rollingMean w qs).length = qs.length := by
  simp [rollingMean]

/-- Pointwise value of a shifted series: `none` below the lag, the value
`k` places earlier at or above it. -/
theorem shift_getElem (k : Nat) (qs : List ℚ) (i : Nat) (hi : i < qs.length) :
    (shift k qs)[i]? = some (if h : k ≤ i then some qs[i - k] else none) := by
  unfold shift
  rcases le_or_lt k i with hk | hk
  · have hmin : min k qs.length = k := by omega
    rw [List.getElem?_append_right (by simpa [hmin] using hk)]
    have hlt : i - (List.replicate (min k qs.length) (none : Option ℚ)).length = i - k := by
      simp
      omega
    rw [hlt, List.getElem?_map, List.getElem?_take]
    have h2 : i - k < qs.length - k := by omega
    rw [if_pos h2, List.getElem?_eq_getElem (by omega)]
    simp [hk]
  · rw [List.getElem?_append]
    have h1 : i < (List.replicate (min k qs.length) (none : Option ℚ)).length := by
      simp
      omega
    rw [if_pos h1, List.getElem?_replicate, if_pos (by omega : i < min k qs.length)]
    simp [Nat.not_le.mpr hk]

/-- Pointwise value of a rolling mean: `none` until `w` entries have
accumulated, afterwards the mean of the window of width `w` ending at `i`. -/
theorem rollingMean_getElem (w : Nat) (qs : List ℚ) (i : Nat) (hi : i < qs.length) :
    (rollingMean w qs)[i]? =
      some (if i + 1 < w then none
            else some ((((qs.take (i + 1)).drop (i + 1 - w)).sum) / (w : ℚ))) := by
  unfold rollingMean
  rw [List.getElem?_map, List.getElem?_range hi]
  rfl

/-- C4: on every (store, sku) partition — chronologically ordered, since
`load_data` sorts by `sales_date` before `preprocess_data` runs — the lag
columns satisfy `quantity_lag_k[i] = quantity[i-k]` for k ∈ {1, 7, 30}
(null when `i - k < 0`, so in particular `quantity_lag_30[i]` is null for
`i < 30` and equals `quantity[i-30]` once the partition has ≥ 31 ordered
observations), and `quantity_ma_7[i]` is the arithmetic mean of
`quantity[i-6..i]` inclusive (null until 7 observations accumulated). -/
theorem preprocess_lag_ma_pointwise (rows : List DemandRow) (store sku : String)
    (i : Nat) (hi : i < (partitionQuantities store sku rows).length) :
    (∀ k ∈ ([1, 7, 30] : List Nat),
      (entityLagColumn k (partitionQuantities store sku rows))[i]? =
        if k ≤ i then Option.map some (partitionQuantities store sku rows)[i - k]?
        else some none) ∧
    (entityMa7Column (partitionQuantities store sku rows))[i]? =
      if 6 ≤ i then
        some (some (((((partitionQuantities store sku rows).take (i + 1)).drop (i - 6)).sum) / 7))
      else some none := by
  constructor
  · intro k _
    rw [entityLagColumn, shift_getElem k _ i hi]
    rcases le_or_lt k i with hk | hk
    · rw [dif_pos hk, if_pos hk, List.getElem?_eq_getElem (by omega)]
      rfl
    · rw [dif_neg (by omega), if_neg (by omega)]
  · rw [entityMa7Column, rollingMean_getElem 7 _ i hi]
    rcases le_or_lt 6 i with hk | hk
    · rw [if_neg (by omega), if_pos hk]
      have : i + 1 - 7 = i - 6 := by omega
      rw [this]
      norm_num
    · rw [if_pos (by omega), if_neg (by omega)]

/-- Concrete check of `preprocess_lag_ma_pointwise` on a partition with two
entities interleaved: at index 7 of entity (S1, A)'s 8-point series, lag 1
reads the previous value, lags 7 and 30 behave per the bound, and the
7-point moving average is the mean of values 1..7. -/
theorem preprocess_lag_ma_pointwise_witness :
    (7 < (partitionQuantities "S1" "A" demoRows).length) ∧
    ((∀ k ∈ ([1, 7, 30] : List Nat),
      (entityLagColumn k (partitionQuantities "S1" "A" demoRows))[7]? =
        if k ≤ 7 then Option.map some (partitionQuantities "S1" "A" demoRows)[7 - k]?
        else some none) ∧
    (entityMa7Column (partitionQuantities "S1" "A" demoRows))[7]? =
      if 6 ≤ 7 then
        some (some (((((partitionQuantities "S1" "A" demoRows).take (7 + 1)).drop (7 - 6)).sum) / 7))
      else some none) :=
  ⟨by decide, preprocess_lag_ma_pointwise demoRows "S1" "A" 7 (by decide)⟩

/-! ## Forecast-engine lemmas -/

/-- Every element of the forecast loop's output is the step's result at some
day of the range, under some encoder state. -/
theorem predictLoop_mem (step : Encoders → Nat → Encoders × PredictionResult)
    (e : Encoders) (ds : List Nat) (r : PredictionResult)
    (hr : r ∈ predictLoop step e ds) : ∃ e' d, d ∈ ds ∧ r = (step e' d).2 := by
  induction ds generalizing e with
  | nil => simp [predictLoop] at hr
  | cons d ds ih =>
      rw [predictLoop] at hr
      rcases List.mem_cons.mp hr with h | h
      · exact ⟨e, d, List.mem_cons_self .., h⟩
      · rcases ih _ h with ⟨e', d', hd', hr'⟩
        exact ⟨e', d', List.mem_cons_of_mem _ hd', hr'⟩

/-- Arithmetic facts about one assembled `PredictionResult`: the point
estimate is non-negative, the lower bound is non-negative and below the
point estimate, and the point estimate stays below the upper bound exactly
on non-negative raw predictions. -/
theorem mkPredictionResult_facts (pid : String) (d : Nat) (p : ℚ) (acc : Option ℚ) :
    0 ≤ (mkPredictionResult pid d p acc).predicted_demand ∧
    0 ≤ (mkPredictionResult pid d p acc).confidence_lower ∧
    (mkPredictionResult pid d p acc).confidence_lower ≤
      (mkPredictionResult pid d p acc).predicted_demand ∧
    (0 ≤ p → (mkPredictionResult pid d p acc).predicted_demand ≤
      (mkPredictionResult pid d p acc).confidence_upper) := by
  refine ⟨le_max_left 0 p, le_max_left _ _, ?_, ?_⟩
  · refine max_le (le_max_left 0 p) ?_
    rcases le_or_lt 0 p with hp | hp
    · calc p - 1 / 10 * p ≤ p := by linarith
        _ ≤ max 0 p := le_max_right 0 p
    · calc p - 1 / 10 * p ≤ 0 := by linarith
        _ ≤ max 0 p := le_max_left 0 p
  · intro hp
    rw [mkPredictionResult]
    simp only [max_eq_right hp]
    linarith

/-- Shape of one forecast-loop output: a `PredictionResult` assembled from
some raw model prediction. -/
theorem predictStep_snd (st : PredictorState) (m : Model) (cols : List String) (template : Row)
    (pid : String) (acc : Option ℚ) (e : Encoders) (d : Nat) :
    ∃ p, (predictStep st m cols template pid acc e d).2 = mkPredictionResult pid d p acc :=
  ⟨_, rfl⟩

/-- C1 (counterexample): a trained state whose model outputs −10 on the
requested day yields a `PredictionResult` with `predicted_demand = 0` but
`confidence_upper = −11`: the claimed invariant
`predicted_demand ≤ confidence_upper` fails for negative raw predictions. -/
theorem predict_band_counterexample :
    ∃ r ∈ predict cexState cexReq cexData,
      ¬ (r.confidence_lower ≤ r.predicted_demand ∧
         r.predicted_demand ≤ r.confidence_upper) := by
  refine ⟨mkPredictionResult "A" 19723 (-10) none, List.mem_singleton_self _, ?_⟩
  rintro ⟨-, h2⟩
  have hu : (-10 : ℚ) + 1 / 10 * (-10) < 0 := by norm_num
  have hd : (0 : ℚ) ≤ max 0 (-10) := le_max_left _ _
  rw [mkPredictionResult] at h2
  simp only at h2
  linarith

/-- C1 (amended): every result returned by `predict` satisfies
`predicted_demand ≥ 0` and `0 ≤ confidence_lower ≤ predicted_demand`, and the
upper half of the band invariant, `predicted_demand ≤ confidence_upper`,
holds whenever the underlying model's raw prediction is non-negative
(`confidence_upper = 1.1 × raw` is not clamped, so it fails for negative
raw predictions). -/
theorem predict_band_amended (st : PredictorState) (req : PredictionRequest) (data : Frame)
    (r : PredictionResult) (hr : r ∈ predict st req data) :
    0 ≤ r.predicted_demand ∧ 0 ≤ r.confidence_lower ∧
      r.confidence_lower ≤ r.predicted_demand ∧
      ∃ p, r = mkPredictionResult req.product_id r.prediction_date p r.model_accuracy ∧
        (0 ≤ p → r.predicted_demand ≤ r.confidence_upper) := by
  unfold predict at hr
  by_cases ht : st.is_trained = false
  · simp [ht] at hr
  · rw [if_neg ht] at hr
    by_cases he : (data.rows.filter
        (fun r => r.getCell "product_id" = Cell.str req.product_id)).isEmpty
    · simp [he] at hr
    · rw [if_neg he] at hr
      rcases hm : lookupModel st.models st.active_model with _ | m
      · rw [hm] at hr; simp at hr
      · rw [hm] at hr
        rcases predictLoop_mem _ _ _ _ hr with ⟨e', d, _, rfl⟩
        rcases predictStep_snd st m data.cols _ req.product_id _ e' d with ⟨p, hp⟩
        rw [hp]
        have hf := mkPredictionResult_facts req.product_id d p
          (metricsR2 st.model_metrics st.active_model)
        exact ⟨hf.1, hf.2.1, hf.2.2.1, p, rfl, hf.2.2.2⟩

/-- Concrete instance of `predict_band_amended`: the single result of a
one-day forecast with a model outputting 100 is
`(predicted, lower, upper) = (100, 90, 110)` and satisfies every conclusion
of the theorem. -/
theorem predict_band_amended_witness :
    (mkPredictionResult "A" 19723 100 none ∈ predict posState cexReq cexData) ∧
    (0 ≤ (mkPredictionResult "A" 19723 100 none).predicted_demand ∧
      0 ≤ (mkPredictionResult "A" 19723 100 none).confidence_lower ∧
      (mkPredictionResult "A" 19723 100 none).confidence_lower ≤
        (mkPredictionResult "A" 19723 100 none).predicted_demand ∧
      ∃ p, mkPredictionResult "A" 19723 100 none =
          mkPredictionResult cexReq.product_id
            (mkPredictionResult "A" 19723 100 none).prediction_date p
            (mkPredictionResult "A" 19723 100 none).model_accuracy ∧
        (0 ≤ p → (mkPredictionResult "A" 19723 100 none).predicted_demand ≤
          (mkPredictionResult "A" 19723 100 none).confidence_upper)) :=
  ⟨List.mem_singleton_self _,
   predict_band_amended posState cexReq cexData _ (List.mem_singleton_self _)⟩

/-- C6: `predict` returns the empty sequence (and, being a total function,
raises nothing) whenever the predictor is untrained, and likewise whenever
the stored records filtered to the requested entity are empty. -/
theorem predict_untrained_or_unknown_empty (st : PredictorState) (req : PredictionRequest)
    (data : Frame)
    (h : st.is_trained = false ∨
      data.rows.filter (fun r => r.getCell "product_id" = Cell.str req.product_id) = []) :
    predict st req data = [] := by
  unfold predict
  rcases h with h | h
  · simp [h]
  · by_cases ht : st.is_trained = false
    · simp [ht]
    · rw [if_neg ht, h]
      simp

/-- Concrete instance of `predict_untrained_or_unknown_empty`: the fresh
predictor state is untrained and predicts nothing. -/
theorem predict_untrained_or_unknown_empty_witness :
    (initState.is_trained = false ∨
      cexData.rows.filter (fun r => r.getCell "product_id" = Cell.str cexReq.product_id) = []) ∧
    predict initState cexReq cexData = [] :=
  ⟨Or.inl rfl, predict_untrained_or_unknown_empty initState cexReq cexData (Or.inl rfl)⟩

/-! ## Training-controller lemmas -/

/-- C5: whenever fewer than 10 rows carry a non-null target after feature
construction, `train` returns an `{'error': ...}` dict — the embedded
function is total, so nothing propagates to the caller. -/
theorem train_insufficient_data (fits : FitFn) (fitScaler : List (List ℚ) → Scaler)
    (split : Nat → List Nat × List Nat) (st : PredictorState) (data : Frame)
    (h : (validPairs (prepare_features st.label_encoders data).2.cols
            (prepare_features st.label_encoders data).2.rows
            (data.rows.map (fun r => r.getCell "demand_value"))).length < 10) :
    ∃ msg, (train fits fitScaler split st data).2 = TrainResult.error msg := by
  unfold train
  by_cases h1 : data.rows.isEmpty ∨ ¬ data.cols.contains "demand_value"
  · exact ⟨"Invalid training data", by rw [if_pos h1]⟩
  · rw [if_neg h1]
    exact ⟨"Insufficient data for training (minimum 10 records required)",
      by simp only [if_pos h]⟩

/-- Concrete instance of `train_insufficient_data`: training on five records
(the spec's example) fails with the insufficient-data error. -/
theorem train_insufficient_data_witness :
    ((validPairs (prepare_features initState.label_encoders fiveRowData).2.cols
        (prepare_features initState.label_encoders fiveRowData).2.rows
        (fiveRowData.rows.map (fun r => r.getCell "demand_value"))).length < 10) ∧
    ∃ msg, (train nilFits idScalerFit nilSplit initState fiveRowData).2 =
      TrainResult.error msg :=
  ⟨by decide, train_insufficient_data nilFits idScalerFit nilSplit initState fiveRowData
    (by decide)⟩

/-- C9: whenever `train` returns an error — invalid input, insufficient
data, or a raised `fit` caught by the `except` — the fields `is_trained`,
`active_model` and `model_metrics` keep their pre-call values (only the
success path assigns them). -/
theorem train_error_frame (fits : FitFn) (fitScaler : List (List ℚ) → Scaler)
    (split : Nat → List Nat × List Nat) (st st' : PredictorState) (data : Frame)
    (msg : String)
    (h : train fits fitScaler split st data = (st', TrainResult.error msg)) :
    st'.is_trained = st.is_trained ∧ st'.active_model = st.active_model ∧
      st'.model_metrics = st.model_metrics := by
  unfold train at h
  split at h
  · injection h with h1 h2
    subst h1
    exact ⟨rfl, rfl, rfl⟩
  · dsimp only at h
    split at h
    · injection h with h1 h2
      subst h1
      exact ⟨rfl, rfl, rfl⟩
    · split at h
      · split at h
        · injection h with h1 h2
          exact TrainResult.noConfusion h2
        · injection h with h1 h2
          subst h1
          exact ⟨rfl, rfl, rfl⟩
      · injection h with h1 h2
        subst h1
        exact ⟨rfl, rfl, rfl⟩

/-- Concrete instance of `train_error_frame`: training on an empty frame
fails and leaves the fresh state's `is_trained`, `active_model` and
`model_metrics` untouched. -/
theorem train_error_frame_witness :
    (train nilFits idScalerFit nilSplit initState emptyFrame =
      (initState, TrainResult.error "Invalid training data")) ∧
    initState.is_trained = initState.is_trained ∧
      initState.active_model = initState.active_model ∧
      initState.model_metrics = initState.model_metrics :=
  ⟨rfl, train_error_frame nilFits idScalerFit nilSplit initState initState emptyFrame
    "Invalid training data" rfl⟩

/-- C2: evaluating the feature-column selection of `prepare_features` on
the column set that `DemandDataProcessor.preprocess_data` actually
produces.  The selection keeps only the hard-coded numerical list (plus the
encoded weather column): none of the processor's lag columns
(`sold_qty_lag_1/7/30`) and not its moving-average column (`sold_qty_ma_7`)
is selected — the lag filter looks for the prefix `demand_lag_` — and the
economic field `promotion_discount` is dropped as well, refuting the
claimed union. -/
theorem prepare_features_drops_processor_lag_cols :
    featureColsSelected preprocessedCols =
      ["year", "month", "day_of_week", "quarter", "price", "promotion",
       "seasonality_factor", "product_id", "weather_condition"] ∧
    ("sold_qty_lag_1" ∈ preprocessedCols ∧ "sold_qty_lag_7" ∈ preprocessedCols ∧
     "sold_qty_lag_30" ∈ preprocessedCols ∧ "sold_qty_ma_7" ∈ preprocessedCols ∧
     "promotion_discount" ∈ preprocessedCols) ∧
    ("sold_qty_lag_1" ∉ featureColsSelected preprocessedCols ∧
     "sold_qty_lag_7" ∉ featureColsSelected preprocessedCols ∧
     "sold_qty_lag_30" ∉ featureColsSelected preprocessedCols ∧
     "sold_qty_ma_7" ∉ featureColsSelected preprocessedCols ∧
     "promotion_discount" ∉ featureColsSelected preprocessedCols) := by decide

/-! ## Model selection -/

/-- The training loop on the three-entry bank succeeds exactly when every
`fit` succeeds; the linear model is then fitted on the scaled training
matrix and scored on the scaled test matrix, while both tree ensembles are
fitted and scored on the raw matrices, and the metrics table lists the bank
in insertion order. -/
theorem fitAll_bank_success (fits : FitFn) (scaler : Scaler) (Xtr Xte : List (List ℚ))
    (ytr yte : List ℚ) (a b c : Model) (models2 : List (String × Model))
    (mets : List (String × Metrics))
    (h : fitAll fits scaler Xtr Xte ytr yte
      [("random_forest", a), ("gradient_boosting", b), ("linear_regression", c)] =
      (models2, some mets)) :
    ∃ m1 m2 m3,
      fits "random_forest" Xtr ytr = some m1 ∧
      fits "gradient_boosting" Xtr ytr = some m2 ∧
      fits "linear_regression" (Xtr.map scaler) ytr = some m3 ∧
      models2 = [("random_forest", m1), ("gradient_boosting", m2), ("linear_regression", m3)] ∧
      mets = [("random_forest", metricsOf yte (Xte.map m1)),
              ("gradient_boosting", metricsOf yte (Xte.map m2)),
              ("linear_regression", metricsOf yte ((Xte.map scaler).map m3))] := by
  simp only [fitAll, String.reduceEq, reduceIte] at h
  rcases h1 : fits "random_forest" Xtr ytr with _ | m1
  · rw [h1] at h
    simp at h
  rw [h1] at h
  rcases h2 : fits "gradient_boosting" Xtr ytr with _ | m2
  · rw [h2] at h
    simp at h
  rw [h2] at h
  rcases h3 : fits "linear_regression" (Xtr.map scaler) ytr with _ | m3
  · rw [h3] at h
    simp at h
  rw [h3] at h
  dsimp only at h
  obtain ⟨hm, hmet⟩ := Prod.mk.injEq .. ▸ h
  exact ⟨m1, m2, m3, rfl, rfl, rfl, hm.symm, (Option.some.injEq .. ▸ hmet).symm⟩

/-- Python's `max` over a three-entry table keyed by `r2`: the winner is the
first entry attaining the maximal score — characterized here by exact
tie-breaking inequalities. -/
theorem selectBest_three_spec (n1 n2 n3 : String) (x y z : Metrics)
    (h12 : n1 ≠ n2) (h13 : n1 ≠ n3) (h23 : n2 ≠ n3) :
    ∃ w, selectBest [(n1, x), (n2, y), (n3, z)] = some w ∧
      (w = n1 ↔ y.r2 ≤ x.r2 ∧ z.r2 ≤ x.r2) ∧
      (w = n2 ↔ x.r2 < y.r2 ∧ z.r2 ≤ y.r2) ∧
      (w = n3 ↔ x.r2 < z.r2 ∧ y.r2 < z.r2) := by
  unfold selectBest
  simp only [List.foldl]
  by_cases h1 : x.r2 < y.r2
  · rw [if_pos h1]
    by_cases h2 : y.r2 < z.r2
    · rw [if_pos h2]
      exact ⟨n3, rfl,
        iff_of_false (fun he => h13 he.symm) (fun hc => absurd hc.1 (not_le.mpr h1)),
        iff_of_false (fun he => h23 he.symm) (fun hc => absurd hc.2 (not_le.mpr h2)),
        iff_of_true rfl ⟨h1.trans h2, h2⟩⟩
    · rw [if_neg h2]
      exact ⟨n2, rfl,
        iff_of_false (fun he => h12 he.symm) (fun hc => absurd hc.1 (not_le.mpr h1)),
        iff_of_true rfl ⟨h1, not_lt.mp h2⟩,
        iff_of_false h23 (fun hc => absurd hc.2 (not_lt.mp h2).not_lt)⟩
  · rw [if_neg h1]
    by_cases h2 : x.r2 < z.r2
    · rw [if_pos h2]
      exact ⟨n3, rfl,
        iff_of_false (fun he => h13 he.symm) (fun hc => absurd hc.2 (not_le.mpr h2)),
        iff_of_false h23.symm (fun hc => absurd hc.1 (not_lt.mp h1).not_lt),
        iff_of_true rfl ⟨h2, lt_of_le_of_lt (not_lt.mp h1) h2⟩⟩
    · rw [if_neg h2]
      exact ⟨n1, rfl,
        iff_of_true rfl ⟨not_lt.mp h1, not_lt.mp h2⟩,
        iff_of_false h12 (fun hc => absurd hc.1 (not_lt.mp h1).not_lt),
        iff_of_false h13 (fun hc => absurd hc.1 (not_lt.mp h2).not_lt)⟩

/-- C3: a successful `train` sets the active model to the Model Bank entry
with the highest held-out R², and on ties the entry earlier in the bank's
deterministic insertion order (random_forest, gradient_boosting,
linear_regression) wins. -/
theorem train_selects_highest_r2 (fits : FitFn) (fitScaler : List (List ℚ) → Scaler)
    (split : Nat → List Nat × List Nat) (st st' : PredictorState) (data : Frame)
    (best : String) (mets : List (String × Metrics)) (ntr nte : Nat)
    (hnames : st.models.map Prod.fst = bankNames)
    (h : train fits fitScaler split st data = (st', .success best mets ntr nte)) :
    st'.active_model = best ∧
    ∃ mrf mgb mlr,
      mets = [("random_forest", mrf), ("gradient_boosting", mgb), ("linear_regression", mlr)] ∧
      (best = "random_forest" ↔ mgb.r2 ≤ mrf.r2 ∧ mlr.r2 ≤ mrf.r2) ∧
      (best = "gradient_boosting" ↔ mrf.r2 < mgb.r2 ∧ mlr.r2 ≤ mgb.r2) ∧
      (best = "linear_regression" ↔ mrf.r2 < mlr.r2 ∧ mgb.r2 < mlr.r2) := by
  obtain ⟨a, b, c, hsm⟩ : ∃ a b c, st.models =
      [("random_forest", a), ("gradient_boosting", b), ("linear_regression", c)] := by
    rcases hsm : st.models with _ | ⟨⟨n1, a⟩, _ | ⟨⟨n2, b⟩, _ | ⟨⟨n3, c⟩, _ | ⟨d, tl⟩⟩⟩⟩ <;>
      rw [hsm] at hnames <;> simp [bankNames] at hnames
    obtain ⟨e1, e2, e3⟩ := hnames
    exact ⟨a, b, c, by rw [e1, e2, e3]⟩
  unfold train at h
  split at h
  · injection h with h1 h2
    exact TrainResult.noConfusion h2
  · dsimp only at h
    rw [hsm] at h
    split at h
    · injection h with h1 h2
      exact TrainResult.noConfusion h2
    · split at h
      · rename_i models2 mets0 heq
        split at h
        · rename_i best0 heq2
          injection h with h1 h2
          injection h2 with hb hm hnt hne
          subst hb hm h1
          obtain ⟨m1, m2, m3, -, -, -, -, hmets⟩ :=
            fitAll_bank_success _ _ _ _ _ _ _ _ _ _ _ heq
          obtain ⟨w, hw, i1, i2, i3⟩ := selectBest_three_spec "random_forest"
            "gradient_boosting" "linear_regression"
            (metricsOf _ _) (metricsOf _ _) (metricsOf _ _)
            (by decide) (by decide) (by decide)
          rw [hmets, hw] at heq2
          injection heq2 with hwb
          subst hwb
          exact ⟨rfl, _, _, _, hmets, i1, i2, i3⟩
        · injection h with h1 h2
          exact TrainResult.noConfusion h2
      · injection h with h1 h2
        exact TrainResult.noConfusion h2

/-- The forecast loop is pointwise-determined by its step function. -/
theorem predictLoop_congr (step1 step2 : Encoders → Nat → Encoders × PredictionResult)
    (h : ∀ e d, step1 e d = step2 e d) (e : Encoders) (ds : List Nat) :
    predictLoop step1 e ds = predictLoop step2 e ds := by
  induction ds generalizing e with
  | nil => rfl
  | cons d ds ih =>
      rw [predictLoop, predictLoop, h e d]
      rw [ih]

/-- Re-keyed composition inside the model dict: post-composing the entry
under one key commutes with lookup. -/
theorem lookupModel_map_compose (l : List (String × Model)) (n : String) (s : Scaler) :
    lookupModel (l.map (fun p => if p.1 = n then (p.1, fun x => p.2 (s x)) else p)) n =
      (lookupModel l n).map (fun mdl => fun x => mdl (s x)) := by
  induction l with
  | nil => rfl
  | cons p tl ih =>
      unfold lookupModel at ih ⊢
      simp only [List.map_cons, List.find?]
      by_cases hp : p.1 = n
      · simp [if_pos hp, hp]
      · simp only [if_neg hp, decide_eq_false hp]
        exact ih

/-- C7: standardization touches only the linear strategy.  On the training
side, a successful `train` fits the scaler on the training partition alone
(`st'.scaler = fitScaler Xtr`), hands the linear regressor the
scaler-transformed training matrix and scores it on the scaler-transformed
test matrix, while both tree ensembles are fitted and scored on the raw
matrices.  On the forecast side, predictions ignore the scaler entirely
whenever the active model is not the linear one, and with the linear model
active every prediction factors the stored scaler transform in front of the
model. -/
theorem standardization_only_linear (fits : FitFn) (fitScaler : List (List ℚ) → Scaler)
    (split : Nat → List Nat × List Nat) (st st' : PredictorState) (data : Frame)
    (best : String) (mets : List (String × Metrics)) (ntr nte : Nat)
    (pairs : List (List ℚ × ℚ)) (Xtr Xte : List (List ℚ)) (ytr yte : List ℚ)
    (hnames : st.models.map Prod.fst = bankNames)
    (h : train fits fitScaler split st data = (st', .success best mets ntr nte))
    (hpairs : pairs = validPairs (prepare_features st.label_encoders data).2.cols
        (prepare_features st.label_encoders data).2.rows
        (data.rows.map (fun r => r.getCell "demand_value")))
    (hXtr : Xtr = ((split pairs.length).1.filterMap (fun i => pairs[i]?)).map (fun p => p.1))
    (hytr : ytr = ((split pairs.length).1.filterMap (fun i => pairs[i]?)).map (fun p => p.2))
    (hXte : Xte = ((split pairs.length).2.filterMap (fun i => pairs[i]?)).map (fun p => p.1))
    (hyte : yte = ((split pairs.length).2.filterMap (fun i => pairs[i]?)).map (fun p => p.2)) :
    (st'.scaler = fitScaler Xtr ∧
      ∃ m1 m2 m3,
        fits "random_forest" Xtr ytr = some m1 ∧
        fits "gradient_boosting" Xtr ytr = some m2 ∧
        fits "linear_regression" (Xtr.map (fitScaler Xtr)) ytr = some m3 ∧
        st'.models = [("random_forest", m1), ("gradient_boosting", m2),
                      ("linear_regression", m3)] ∧
        mets = [("random_forest", metricsOf yte (Xte.map m1)),
                ("gradient_boosting", metricsOf yte (Xte.map m2)),
                ("linear_regression", metricsOf yte ((Xte.map (fitScaler Xtr)).map m3))]) ∧
    (∀ (st2 : PredictorState) (req : PredictionRequest) (pdata : Frame) (s1 s2 : Scaler),
      st2.active_model ≠ "linear_regression" →
      predict { st2 with scaler := s1 } req pdata =
        predict { st2 with scaler := s2 } req pdata) ∧
    (∀ (st2 : PredictorState) (req : PredictionRequest) (pdata : Frame),
      st2.active_model = "linear_regression" →
      predict st2 req pdata =
        predict
          { st2 with
            scaler := id
            models := st2.models.map (fun p =>
              if p.1 = "linear_regression" then (p.1, fun x => p.2 (st2.scaler x)) else p) }
          req pdata) := by
  subst hXtr hytr hXte hyte hpairs
  refine ⟨?_, ?_, ?_⟩
  · obtain ⟨a, b, c, hsm⟩ : ∃ a b c, st.models =
        [("random_forest", a), ("gradient_boosting", b), ("linear_regression", c)] := by
      rcases hsm : st.models with _ | ⟨⟨n1, a⟩, _ | ⟨⟨n2, b⟩, _ | ⟨⟨n3, c⟩, _ | ⟨d, tl⟩⟩⟩⟩ <;>
        rw [hsm] at hnames <;> simp [bankNames] at hnames
      obtain ⟨e1, e2, e3⟩ := hnames
      exact ⟨a, b, c, by rw [e1, e2, e3]⟩
    unfold train at h
    split at h
    · injection h with h1 h2
      exact TrainResult.noConfusion h2
    · dsimp only at h
      rw [hsm] at h
      split at h
      · injection h with h1 h2
        exact TrainResult.noConfusion h2
      · split at h
        · rename_i models2 mets0 heq
          split at h
          · rename_i best0 heq2
            injection h with h1 h2
            injection h2 with hb hm hnt hne
            subst hb hm h1
            obtain ⟨m1, m2, m3, hf1, hf2, hf3, hmod, hmets⟩ :=
              fitAll_bank_success _ _ _ _ _ _ _ _ _ _ _ heq
            exact ⟨rfl, m1, m2, m3, hf1, hf2, hf3, hmod, hmets⟩
          · injection h with h1 h2
            exact TrainResult.noConfusion h2
        · injection h with h1 h2
          exact TrainResult.noConfusion h2
  · intro st2 req pdata s1 s2 hne
    unfold predict
    dsimp only
    by_cases ht : st2.is_trained = false
    · simp [ht]
    · rw [if_neg ht, if_neg ht]
      by_cases he : (pdata.rows.filter
          (fun r => r.getCell "product_id" = Cell.str req.product_id)).isEmpty
      · simp [he]
      · rw [if_neg he, if_neg he]
        cases hm : lookupModel st2.models st2.active_model
        · rfl
        · apply predictLoop_congr
          intro e d
          unfold predictStep
          dsimp only
          simp [applyModel, hne]
  · intro st2 req pdata hactive
    unfold predict
    dsimp only
    by_cases ht : st2.is_trained = false
    · simp [ht]
    · rw [if_neg ht, if_neg ht]
      by_cases he : (pdata.rows.filter
          (fun r => r.getCell "product_id" = Cell.str req.product_id)).isEmpty
      · simp [he]
      · rw [if_neg he, if_neg he, hactive,
            lookupModel_map_compose st2.models "linear_regression" st2.scaler]
        rcases hm : lookupModel st2.models "linear_regression" with _ | m
        · rfl
        · apply predictLoop_congr
          intro e d
          unfold predictStep
          dsimp only
          simp [applyModel, hactive]

/-- The state a successful `train` leaves behind: trained flag set, the
selected name stored as active model, the fitted bank in insertion order,
and the winner produced by the `max`-selection over the metrics table. -/
theorem train_success_shape (fits : FitFn) (fitScaler : List (List ℚ) → Scaler)
    (split : Nat → List Nat × List Nat) (st st' : PredictorState) (data : Frame)
    (best : String) (mets : List (String × Metrics)) (ntr nte : Nat)
    (hnames : st.models.map Prod.fst = bankNames)
    (h : train fits fitScaler split st data = (st', .success best mets ntr nte)) :
    st'.is_trained = true ∧ st'.active_model = best ∧ st'.model_metrics = mets ∧
    (∃ m1 m2 m3, st'.models =
      [("random_forest", m1), ("gradient_boosting", m2), ("linear_regression", m3)]) ∧
    (∃ mrf mgb mlr, mets =
      [("random_forest", mrf), ("gradient_boosting", mgb), ("linear_regression", mlr)]) ∧
    selectBest mets = some best := by
  obtain ⟨a, b, c, hsm⟩ : ∃ a b c, st.models =
      [("random_forest", a), ("gradient_boosting", b), ("linear_regression", c)] := by
    rcases hsm : st.models with _ | ⟨⟨n1, a⟩, _ | ⟨⟨n2, b⟩, _ | ⟨⟨n3, c⟩, _ | ⟨d, tl⟩⟩⟩⟩ <;>
      rw [hsm] at hnames <;> simp [bankNames] at hnames
    obtain ⟨e1, e2, e3⟩ := hnames
    exact ⟨a, b, c, by rw [e1, e2, e3]⟩
  unfold train at h
  split at h
  · injection h with h1 h2
    exact TrainResult.noConfusion h2
  · dsimp only at h
    rw [hsm] at h
    split at h
    · injection h with h1 h2
      exact TrainResult.noConfusion h2
    · split at h
      · rename_i models2 mets0 heq
        split at h
        · rename_i best0 heq2
          injection h with h1 h2
          injection h2 with hb hm hnt hne
          subst hb hm h1
          obtain ⟨m1, m2, m3, -, -, -, hmod, hmets⟩ :=
            fitAll_bank_success _ _ _ _ _ _ _ _ _ _ _ heq
          subst hmod
          exact ⟨rfl, rfl, rfl, ⟨m1, m2, m3, rfl⟩,
            ⟨_, _, _, hmets⟩, heq2⟩
        · injection h with h1 h2
          exact TrainResult.noConfusion h2
      · injection h with h1 h2
        exact TrainResult.noConfusion h2

/-- The winner of the three-entry `max`-selection is one of the three
keys. -/
theorem selectBest_three_mem (n1 n2 n3 : String) (x y z : Metrics) (w : String)
    (h : selectBest [(n1, x), (n2, y), (n3, z)] = some w) :
    w = n1 ∨ w = n2 ∨ w = n3 := by
  unfold selectBest at h
  simp only [List.foldl] at h
  split_ifs at h <;> injection h with hw <;> subst hw <;> simp

/-- The forecast loop stamps each output with its day: mapping
`prediction_date` over the loop recovers the day list. -/
theorem predictLoop_map_date (st : PredictorState) (m : Model) (cols : List String)
    (tmpl : Row) (pid : String) (acc : Option ℚ) (e : Encoders) (ds : List Nat) :
    (predictLoop (predictStep st m cols tmpl pid acc) e ds).map
      (fun r => r.prediction_date) = ds := by
  induction ds generalizing e with
  | nil => rfl
  | cons d ds ih =>
      rw [predictLoop]
      rw [List.map_cons, ih]
      rfl

/-- `List.range'` with unit step is strictly increasing. -/
theorem chain_lt_range' (n s : Nat) : List.Chain' (fun a b => a < b) (List.range' s n) := by
  induction n generalizing s with
  | zero => simp
  | succ k ih =>
      rw [List.range']
      cases k with
      | zero => simp
      | succ k2 =>
          rw [List.chain'_cons']
          refine ⟨?_, ih (s + 1)⟩
          intro hd hhd
          rw [List.range'] at hhd
          simp at hhd
          omega

/-- C8: after a successful `train` (≥ 10 valid rows), `is_trained` is true
and `predict` for an entity with loaded records returns exactly one result
per calendar day of `[start_day, end_day]`, both endpoints included, in
strictly increasing (chronological) order. -/
theorem train_then_predict_daily (fits : FitFn) (fitScaler : List (List ℚ) → Scaler)
    (split : Nat → List Nat × List Nat) (st st' : PredictorState) (data pdata : Frame)
    (best : String) (mets : List (String × Metrics)) (ntr nte : Nat)
    (req : PredictionRequest)
    (hnames : st.models.map Prod.fst = bankNames)
    (h : train fits fitScaler split st data = (st', .success best mets ntr nte))
    (hne : pdata.rows.filter
      (fun r => r.getCell "product_id" = Cell.str req.product_id) ≠ []) :
    st'.is_trained = true ∧
    (predict st' req pdata).map (fun r => r.prediction_date) =
      dateRange req.start_day req.end_day ∧
    (req.start_day ≤ req.end_day →
      (predict st' req pdata).length = req.end_day - req.start_day + 1) ∧
    (∀ d : Nat, d ∈ dateRange req.start_day req.end_day ↔
      req.start_day ≤ d ∧ d ≤ req.end_day) ∧
    List.Chain' (fun a b => a < b)
      ((predict st' req pdata).map (fun r => r.prediction_date)) := by
  obtain ⟨hit, hact, hmm', ⟨m1, m2, m3, hmodels⟩, ⟨mrf, mgb, mlr, hmets⟩, hsel⟩ :=
    train_success_shape fits fitScaler split st st' data best mets ntr nte hnames h
  have hlook : ∃ mm, lookupModel st'.models st'.active_model = some mm := by
    rw [hmets] at hsel
    rcases selectBest_three_mem _ _ _ _ _ _ _ hsel with hb | hb | hb <;>
      rw [hact, hb, hmodels]
    · exact ⟨m1, rfl⟩
    · exact ⟨m2, rfl⟩
    · exact ⟨m3, rfl⟩
  obtain ⟨mm, hmm⟩ := hlook
  have hpred : predict st' req pdata =
      predictLoop
        (predictStep st' mm pdata.cols
          ((pdata.rows.filter
            (fun r => r.getCell "product_id" = Cell.str req.product_id)).getLastD [])
          req.product_id (metricsR2 st'.model_metrics st'.active_model))
        st'.label_encoders (dateRange req.start_day req.end_day) := by
    unfold predict
    rw [if_neg (by rw [hit]; exact fun hc => Bool.noConfusion hc)]
    rw [if_neg (by rwa [ne_eq, ← List.isEmpty_iff] at hne), hmm]
  have hmap : (predict st' req pdata).map (fun r => r.prediction_date) =
      dateRange req.start_day req.end_day := by
    rw [hpred, predictLoop_map_date]
  refine ⟨hit, hmap, ?_, ?_, ?_⟩
  · intro hle
    have := congrArg List.length hmap
    rw [List.length_map] at this
    rw [this, dateRange, if_pos hle, List.length_range']
  · intro d
    by_cases hle : req.start_day ≤ req.end_day
    · rw [dateRange, if_pos hle, List.mem_range'_1]
      omega
    · rw [dateRange, if_neg hle]
      simp
      omega
  · rw [hmap, dateRange]
    by_cases hle : req.start_day ≤ req.end_day
    · rw [if_pos hle]
      exact chain_lt_range' _ _
    · rw [if_neg hle]
      simp

/-- Concrete instance of `train_then_predict_daily`: after the ten-record
training run, a three-day request for entity `"A"` yields results stamped
2024-01-01, 2024-01-02, 2024-01-03 in order. -/
theorem train_then_predict_daily_witness :
    (train wFits idScalerFit wSplit initState wData =
      (wState, .success "gradient_boosting" wMets 8 2)) ∧
    (wData.rows.filter
      (fun r => r.getCell "product_id" = Cell.str wReq.product_id) ≠ []) ∧
    (wState.is_trained = true ∧
      (predict wState wReq wData).map (fun r => r.prediction_date) =
        dateRange wReq.start_day wReq.end_day ∧
      (wReq.start_day ≤ wReq.end_day →
        (predict wState wReq wData).length = wReq.end_day - wReq.start_day + 1) ∧
      (∀ d : Nat, d ∈ dateRange wReq.start_day wReq.end_day ↔
        wReq.start_day ≤ d ∧ d ≤ wReq.end_day) ∧
      List.Chain' (fun a b => a < b)
        ((predict wState wReq wData).map (fun r => r.prediction_date))) := by
  have h : train wFits idScalerFit wSplit initState wData =
      (wState, .success "gradient_boosting" wMets 8 2) :=
    Prod.ext rfl (by with_unfolding_all decide)
  have hne : wData.rows.filter
      (fun r => r.getCell "product_id" = Cell.str wReq.product_id) ≠ [] := by decide
  exact ⟨h, hne, train_then_predict_daily wFits idScalerFit wSplit initState wState
    wData wData "gradient_boosting" wMets 8 2 wReq rfl h hne⟩

/-! ## Per-day feature synthesis in the forecast loop -/

theorem getCell_setCell_self (r : Row) (c : String) (v : Cell) :
    (r.setCell c v).getCell c = v := by
  induction r with
  | nil =>
      unfold Row.setCell Row.getCell
      rw [List.find?_cons_of_pos _ (by simp)]
  | cons p ps ih =>
      rw [Row.setCell]
      by_cases hp : p.1 = c
      · rw [if_pos hp]
        unfold Row.getCell
        rw [List.find?_cons_of_pos _ (by simp)]
      · rw [if_neg hp]
        unfold Row.getCell at ih ⊢
        rw [List.find?_cons_of_neg _ (by simpa using hp)]
        exact ih

theorem getCell_setCell_ne (r : Row) (c c' : String) (v : Cell) (h : c' ≠ c) :
    (r.setCell c v).getCell c' = r.getCell c' := by
  induction r with
  | nil =>
      unfold Row.setCell Row.getCell
      rw [List.find?_cons_of_neg _ (by simp; exact fun hc => h hc.symm)]
  | cons p ps ih =>
      rw [Row.setCell]
      by_cases hp : p.1 = c
      · rw [if_pos hp]
        unfold Row.getCell
        rw [List.find?_cons_of_neg _ (by simp; exact fun hc => h hc.symm)]
        rw [List.find?_cons_of_neg _ (by rw [hp]; simp; exact fun hc => h hc.symm)]
      · rw [if_neg hp]
        unfold Row.getCell at ih ⊢
        by_cases hp' : p.1 = c'
        · rw [List.find?_cons_of_pos _ (by simpa using hp'),
              List.find?_cons_of_pos _ (by simpa using hp')]
        · rw [List.find?_cons_of_neg _ (by simpa using hp'),
              List.find?_cons_of_neg _ (by simpa using hp')]
          exact ih

theorem find?_map_update_self (e : Encoders) (c : String) (cl : List String)
    (hf : (e.find? (fun p => p.1 = c)).isSome) :
    ((e.map (fun p => if p.1 = c then (c, cl) else p)).find?
      (fun p => p.1 = c)) = some (c, cl) := by
  induction e with
  | nil => simp at hf
  | cons p tl ih =>
      rw [List.map_cons]
      by_cases hp : p.1 = c
      · rw [if_pos hp]
        simp [List.find?]
      · rw [if_neg hp]
        rw [List.find?_cons_of_neg _ (by simpa using hp)]
        refine ih ?_
        rwa [List.find?_cons_of_neg _ (by simpa using hp)] at hf

theorem find?_map_update_ne (e : Encoders) (c c' : String) (cl : List String)
    (h : c' ≠ c) :
    ((e.map (fun p => if p.1 = c then (c, cl) else p)).find? (fun p => p.1 = c')) =
      e.find? (fun p => p.1 = c') := by
  induction e with
  | nil => rfl
  | cons p tl ih =>
      rw [List.map_cons]
      by_cases hp : p.1 = c
      · rw [if_pos hp]
        rw [List.find?_cons_of_neg _ (by simp; exact fun hc => h hc.symm)]
        rw [List.find?_cons_of_neg _ (by simp [hp]; exact fun hc => h hc.symm)]
        exact ih
      · rw [if_neg hp]
        by_cases hp' : p.1 = c'
        · rw [List.find?_cons_of_pos _ (by simpa using hp'),
              List.find?_cons_of_pos _ (by simpa using hp')]
        · rw [List.find?_cons_of_neg _ (by simpa using hp'),
              List.find?_cons_of_neg _ (by simpa using hp')]
          exact ih

theorem lookupEnc_updateEnc_self (e : Encoders) (c : String) (cl : List String) :
    lookupEnc (updateEnc e c cl) c = some cl := by
  unfold updateEnc
  by_cases hf : (e.find? (fun p => p.1 = c)).isSome
  · rw [if_pos hf]
    unfold lookupEnc
    rw [find?_map_update_self e c cl hf]
  · rw [if_neg hf]
    unfold lookupEnc
    rw [List.find?_append]
    rw [Option.not_isSome_iff_eq_none] at hf
    rw [hf]
    simp [List.find?]

theorem lookupEnc_updateEnc_ne (e : Encoders) (c c' : String) (cl : List String)
    (h : c' ≠ c) :
    lookupEnc (updateEnc e c cl) c' = lookupEnc e c' := by
  unfold updateEnc
  by_cases hf : (e.find? (fun p => p.1 = c)).isSome
  · rw [if_pos hf]
    unfold lookupEnc
    rw [find?_map_update_ne e c c' cl h]
  · rw [if_neg hf]
    unfold lookupEnc
    rw [List.find?_append]
    have h2 : ([(c, cl)].find? (fun p => p.1 = c')) = none := by
      rw [List.find?_cons_of_neg _ (by simp; exact fun hc => h hc.symm)]
      rfl
    cases hd : e.find? (fun p => p.1 = c') <;> simp [hd, h2]

theorem contains_iff_mem (l : List String) (a : String) : l.contains a = true ↔ a ∈ l :=
  List.elem_iff

theorem encValueCl_none (s : String) :
    encValueCl none s = (idxOf (sortedUnique [s]) s : ℚ) := rfl

theorem encValueCl_some (cl : List String) (s : String) :
    encValueCl (some cl) s =
      (idxOf (if cl.contains "unknown" then cl else cl ++ ["unknown"])
        (if cl.contains s then s else "unknown") : ℚ) := rfl

/-- The transform value of a column is untouched by updates to a different
column's encoder. -/
theorem encValue_encUpd_ne (e : Encoders) (c c' s s' : String) (h : c ≠ c') :
    encValue (encUpd e c' s') c s = encValue e c s := by
  unfold encUpd
  rcases hl : lookupEnc e c' with _ | classes <;>
    simp only [hl] <;>
    unfold encValue <;>
    rw [lookupEnc_updateEnc_ne _ _ _ _ h]

/-- Re-encoding the same value after its own encoder update yields the same
code: the update only (possibly) appends the `"unknown"` sentinel, which
changes neither the membership of `s` nor its index. -/
theorem encValue_encUpd_same (e : Encoders) (c s : String) :
    encValue (encUpd e c s) c s = encValue e c s := by
  unfold encUpd
  rcases hl : lookupEnc e c with _ | classes
  · simp only [hl]
    unfold encValue
    rw [lookupEnc_updateEnc_self, hl, encValueCl_some, encValueCl_none]
    have hsu : sortedUnique [s] = [s] := rfl
    rw [hsu]
    by_cases hs : s = "unknown"
    · subst hs
      simp [idxOf]
    · have h1 : (([s] : List String).contains "unknown") = false := by
        rw [Bool.eq_false_iff]
        intro hc
        exact hs ((List.mem_singleton).mp ((contains_iff_mem _ _).mp hc)).symm
      have h2 : (([s] : List String).contains s) = true :=
        (contains_iff_mem _ _).mpr (List.mem_singleton_self s)
      rw [h1, h2]
      simp [idxOf]
  · simp only [hl]
    unfold encValue
    rw [lookupEnc_updateEnc_self, hl, encValueCl_some, encValueCl_some]
    have hu2 : ∀ cl : List String, ((cl ++ ["unknown"]).contains "unknown") = true :=
      fun cl => (contains_iff_mem _ _).mpr
        (List.mem_append_right _ (List.mem_singleton_self _))
    by_cases hu : classes.contains "unknown" = true
    · rw [if_pos hu, if_pos hu]
    · rw [if_neg hu, if_pos (hu2 classes)]
      by_cases hs : classes.contains s = true
      · have hs2 : ((classes ++ ["unknown"]).contains s) = true :=
          (contains_iff_mem _ _).mpr
            (List.mem_append_left _ ((contains_iff_mem _ _).mp hs))
        rw [if_pos hs2, if_pos hs]
      · by_cases hsu : s = "unknown"
        · subst hsu
          rw [if_pos (hu2 classes), if_neg hs]
        · have hs2 : ((classes ++ ["unknown"]).contains s) = false := by
            rw [Bool.eq_false_iff]
            intro hc
            rcases List.mem_append.mp ((contains_iff_mem _ _).mp hc) with hm | hm
            · exact hs ((contains_iff_mem _ _).mpr hm)
            · exact hsu (List.mem_singleton.mp hm)
          rw [hs2, if_neg hs]
          simp

/-- `encodeCol` on a one-row frame: the encoder dict gets the `encUpd`
update and the row's cell is replaced by its `encValue` code (frames lacking
the column pass through). -/
theorem encodeCol_one (encs : Encoders) (cols : List String) (r : Row) (c : String) :
    encodeCol encs ⟨cols, [r]⟩ c =
      (if cols.contains c then encUpd encs c (r.getCell c).toStr else encs,
       ⟨cols, [if cols.contains c then
           r.setCell c (Cell.num (encValue encs c (r.getCell c).toStr)) else r]⟩) := by
  unfold encodeCol encUpd encValue
  by_cases hc : cols.contains c
  · simp only [hc, if_true]
    rcases hl : lookupEnc encs c with _ | classes <;>
      simp [hl, encValueCl]
  · have hm : c ∉ cols := fun h => hc ((contains_iff_mem _ _).mpr h)
    simp [hc, hm]

/-- `prepare_features` on a one-row frame, in closed form. -/
theorem prepare_features_one (encs : Encoders) (cols : List String) (r : Row) :
    prepare_features encs ⟨cols, [r]⟩ =
      (prepOneEnc encs cols r,
       ⟨featureColsSelected cols,
        [(featureColsSelected cols).map
          (fun c => (c, fillCell ((prepOneRow encs cols r).getCell c)))]⟩) := by
  unfold prepare_features
  rw [if_neg (by simp)]
  rw [encodeCol_one]
  dsimp only
  rw [encodeCol_one]
  unfold prepOneEnc prepOneRow
  dsimp only
  have hw : ((if cols.contains "product_id" then
      r.setCell "product_id" (Cell.num (encValue encs "product_id" (r.getCell "product_id").toStr))
      else r).getCell "weather_condition") = r.getCell "weather_condition" := by
    by_cases hp : cols.contains "product_id"
    · rw [if_pos hp, getCell_setCell_ne _ _ _ _ (by decide)]
    · rw [if_neg hp]
  rw [hw]
  simp only [List.map]

/-- One forecast-loop step, in closed form: the encoders receive the
template's categorical updates and the result is assembled from the active
model's output on the synthesized, encoded, zero-filled feature row. -/
theorem predictStep_eq (st : PredictorState) (m : Model) (cols : List String)
    (tmpl : Row) (pid : String) (acc : Option ℚ) (e : Encoders) (d : Nat) :
    predictStep st m cols tmpl pid acc e d =
      (prepOneEnc e (calCols cols) (setCalendar tmpl d),
       mkPredictionResult pid d
         (applyModel st.active_model m st.scaler
           (rowVals (featureColsSelected (calCols cols))
             ((featureColsSelected (calCols cols)).map
               (fun c => (c, fillCell
                 ((prepOneRow e (calCols cols) (setCalendar tmpl d)).getCell c))))))
         acc) := by
  unfold predictStep
  dsimp only
  rw [prepare_features_one]
  rfl

/-- The calendar override writes exactly the target day's calendar fields. -/
theorem getCell_setCalendar_year (r : Row) (d : Nat) :
    (setCalendar r d).getCell "year" = Cell.num (yearOf d) := by
  unfold setCalendar
  rw [getCell_setCell_ne _ _ _ _ (by decide), getCell_setCell_ne _ _ _ _ (by decide),
      getCell_setCell_ne _ _ _ _ (by decide), getCell_setCell_self]

theorem getCell_setCalendar_month (r : Row) (d : Nat) :
    (setCalendar r d).getCell "month" = Cell.num (monthOf d) := by
  unfold setCalendar
  rw [getCell_setCell_ne _ _ _ _ (by decide), getCell_setCell_ne _ _ _ _ (by decide),
      getCell_setCell_self]

theorem getCell_setCalendar_dow (r : Row) (d : Nat) :
    (setCalendar r d).getCell "day_of_week" = Cell.num (dayOfWeekOf d) := by
  unfold setCalendar
  rw [getCell_setCell_ne _ _ _ _ (by decide), getCell_setCell_self]

theorem getCell_setCalendar_quarter (r : Row) (d : Nat) :
    (setCalendar r d).getCell "quarter" = Cell.num (quarterOf d) := by
  unfold setCalendar
  rw [getCell_setCell_self]

/-- Cells other than the date and calendar fields pass through the calendar
override unchanged. -/
theorem getCell_setCalendar_other (r : Row) (d : Nat) (c : String)
    (h1 : c ≠ "date") (h2 : c ≠ "year") (h3 : c ≠ "month") (h4 : c ≠ "day_of_week")
    (h5 : c ≠ "quarter") :
    (setCalendar r d).getCell c = r.getCell c := by
  unfold setCalendar
  rw [getCell_setCell_ne _ _ _ _ h5, getCell_setCell_ne _ _ _ _ h4,
      getCell_setCell_ne _ _ _ _ h3, getCell_setCell_ne _ _ _ _ h2,
      getCell_setCell_ne _ _ _ _ h1]

/-- Every selected feature column is present in the batch and comes from
the hard-coded list, the `demand_lag_` filter or the weather column. -/
theorem mem_featureColsSelected (bc : List String) (c : String)
    (h : c ∈ featureColsSelected bc) :
    bc.contains c = true ∧
      (c ∈ baseFeatureCols ∨ strStartsWith c "demand_lag_" = true ∨
        c = "weather_condition") := by
  unfold featureColsSelected at h
  dsimp only at h
  obtain ⟨hmem, hcont⟩ := List.mem_filter.mp h
  refine ⟨hcont, ?_⟩
  by_cases hw : bc.contains "weather_condition"
  · rw [if_pos hw] at hmem
    rcases List.mem_append.mp hmem with hm | hm
    · rcases List.mem_append.mp hm with hm2 | hm2
      · exact Or.inl hm2
      · exact Or.inr (Or.inl (List.mem_filter.mp hm2).2)
    · exact Or.inr (Or.inr (List.mem_singleton.mp hm))
  · rw [if_neg hw] at hmem
    rcases List.mem_append.mp hmem with hm | hm
    · exact Or.inl hm
    · exact Or.inr (Or.inl (List.mem_filter.mp hm).2)

/-- The `date` column is never selected as a feature. -/
theorem date_not_selected (bc : List String) : "date" ∉ featureColsSelected bc := by
  intro h
  rcases (mem_featureColsSelected bc "date" h).2 with hm | hm | hm
  · exact absurd hm (by decide)
  · exact absurd hm (by decide)
  · exact absurd hm (by decide)

/-- Reading an association row built over its own key list returns the
generating function's value. -/
theorem getCell_assoc (l : List String) (f : String → Cell) (c : String) (h : c ∈ l) :
    Row.getCell (l.map (fun c => (c, f c))) c = f c := by
  induction l with
  | nil => exact absurd h (List.not_mem_nil c)
  | cons a tl ih =>
      rw [List.map_cons]
      unfold Row.getCell
      by_cases ha : a = c
      · subst ha
        rw [List.find?_cons_of_pos _ (by simp)]
      · rw [List.find?_cons_of_neg _ (by simpa using ha)]
        unfold Row.getCell at ih
        exact ih (by rcases List.mem_cons.mp h with hc | hc
                     · exact absurd hc.symm ha
                     · exact hc)

/-- `rowVals` over an association row built on the selected columns is the
pointwise numeric view of the generating function. -/
theorem rowVals_assoc (sel : List String) (f : String → Cell) :
    rowVals sel (sel.map (fun c => (c, f c))) = sel.map (fun c => (f c).toQ) := by
  unfold rowVals
  refine List.map_congr_left ?_
  intro c hc
  rw [getCell_assoc sel f c hc]

theorem prepOneRow_getCell_weather (e : Encoders) (cols : List String) (r : Row)
    (hw : cols.contains "weather_condition" = true) :
    (prepOneRow e cols r).getCell "weather_condition" =
      Cell.num (encValue e "weather_condition" (r.getCell "weather_condition").toStr) := by
  unfold prepOneRow
  dsimp only
  rw [if_pos hw, getCell_setCell_self]
  by_cases hp : cols.contains "product_id"
  · rw [if_pos hp, if_pos hp, getCell_setCell_ne _ _ _ _ (by decide),
        encValue_encUpd_ne _ _ _ _ _ (by decide)]
  · rw [if_neg hp, if_neg hp]

theorem prepOneRow_getCell_product (e : Encoders) (cols : List String) (r : Row)
    (hp : cols.contains "product_id" = true) :
    (prepOneRow e cols r).getCell "product_id" =
      Cell.num (encValue e "product_id" (r.getCell "product_id").toStr) := by
  unfold prepOneRow
  dsimp only
  by_cases hw : cols.contains "weather_condition"
  · rw [if_pos hw, getCell_setCell_ne _ _ _ _ (by decide), if_pos hp, getCell_setCell_self]
  · rw [if_neg hw, if_pos hp, getCell_setCell_self]

theorem prepOneRow_getCell_other (e : Encoders) (cols : List String) (r : Row) (c : String)
    (hcw : c ≠ "weather_condition") (hcp : c ≠ "product_id") :
    (prepOneRow e cols r).getCell c = r.getCell c := by
  unfold prepOneRow
  dsimp only
  by_cases h1 : cols.contains "weather_condition" <;> by_cases h2 : cols.contains "product_id"
  · rw [if_pos h1, getCell_setCell_ne _ _ _ _ hcw, if_pos h2,
        getCell_setCell_ne _ _ _ _ hcp]
  · rw [if_pos h1, getCell_setCell_ne _ _ _ _ hcw, if_neg h2]
  · rw [if_neg h1, if_pos h2, getCell_setCell_ne _ _ _ _ hcp]
  · rw [if_neg h1, if_neg h2]

theorem setCalendar_getCell_product (tmpl : Row) (d : Nat) :
    (setCalendar tmpl d).getCell "product_id" = tmpl.getCell "product_id" :=
  getCell_setCalendar_other _ _ _ (by decide) (by decide) (by decide) (by decide) (by decide)

theorem setCalendar_getCell_weather (tmpl : Row) (d : Nat) :
    (setCalendar tmpl d).getCell "weather_condition" = tmpl.getCell "weather_condition" :=
  getCell_setCalendar_other _ _ _ (by decide) (by decide) (by decide) (by decide) (by decide)

/-- A selected feature cell of the synthesized day-row is determined by the
calendar tuple of the day, the template's own cells, and the encoder dict's
transform values on the template's categorical strings. -/
theorem prepOneRow_getCell_det (e e' : Encoders) (cols : List String) (tmpl : Row)
    (d d' : Nat) (c : String)
    (hc : c ∈ featureColsSelected (calCols cols))
    (hp : encValue e "product_id" (tmpl.getCell "product_id").toStr =
          encValue e' "product_id" (tmpl.getCell "product_id").toStr)
    (hw : encValue e "weather_condition" (tmpl.getCell "weather_condition").toStr =
          encValue e' "weather_condition" (tmpl.getCell "weather_condition").toStr)
    (hcal : calendarOf d = calendarOf d') :
    (prepOneRow e (calCols cols) (setCalendar tmpl d)).getCell c =
      (prepOneRow e' (calCols cols) (setCalendar tmpl d')).getCell c := by
  have hcontain := (mem_featureColsSelected _ _ hc).1
  obtain ⟨hy, hmn, hdw, hq⟩ :
      yearOf d = yearOf d' ∧ monthOf d = monthOf d' ∧
        dayOfWeekOf d = dayOfWeekOf d' ∧ quarterOf d = quarterOf d' := by
    simpa [calendarOf, Prod.ext_iff] using hcal
  by_cases hcw : c = "weather_condition"
  · subst hcw
    rw [prepOneRow_getCell_weather _ _ _ hcontain, prepOneRow_getCell_weather _ _ _ hcontain,
        setCalendar_getCell_weather, setCalendar_getCell_weather, hw]
  · by_cases hcp : c = "product_id"
    · subst hcp
      rw [prepOneRow_getCell_product _ _ _ hcontain, prepOneRow_getCell_product _ _ _ hcontain,
          setCalendar_getCell_product, setCalendar_getCell_product, hp]
    · rw [prepOneRow_getCell_other _ _ _ _ hcw hcp, prepOneRow_getCell_other _ _ _ _ hcw hcp]
      by_cases hcy : c = "year"
      · subst hcy
        rw [getCell_setCalendar_year, getCell_setCalendar_year, hy]
      · by_cases hcm : c = "month"
        · subst hcm
          rw [getCell_setCalendar_month, getCell_setCalendar_month, hmn]
        · by_cases hcd : c = "day_of_week"
          · subst hcd
            rw [getCell_setCalendar_dow, getCell_setCalendar_dow, hdw]
          · by_cases hcq : c = "quarter"
            · subst hcq
              rw [getCell_setCalendar_quarter, getCell_setCalendar_quarter, hq]
            · have hcdate : c ≠ "date" := by
                intro hcd2
                subst hcd2
                exact date_not_selected _ hc
              rw [getCell_setCalendar_other _ _ _ hcdate hcy hcm hcd hcq,
                  getCell_setCalendar_other _ _ _ hcdate hcy hcm hcd hcq]

/-- Two forecast-loop steps whose encoder dicts agree on the template's
categorical transform values, run on days with equal calendar tuples,
produce the same point estimate and confidence bounds. -/
theorem predictStep_fields_det (st : PredictorState) (m : Model) (cols : List String)
    (tmpl : Row) (pid : String) (acc : Option ℚ) (e e' : Encoders) (d d' : Nat)
    (hp : encValue e "product_id" (tmpl.getCell "product_id").toStr =
          encValue e' "product_id" (tmpl.getCell "product_id").toStr)
    (hw : encValue e "weather_condition" (tmpl.getCell "weather_condition").toStr =
          encValue e' "weather_condition" (tmpl.getCell "weather_condition").toStr)
    (hcal : calendarOf d = calendarOf d') :
    (predictStep st m cols tmpl pid acc e d).2.predicted_demand =
      (predictStep st m cols tmpl pid acc e' d').2.predicted_demand ∧
    (predictStep st m cols tmpl pid acc e d).2.confidence_lower =
      (predictStep st m cols tmpl pid acc e' d').2.confidence_lower ∧
    (predictStep st m cols tmpl pid acc e d).2.confidence_upper =
      (predictStep st m cols tmpl pid acc e' d').2.confidence_upper := by
  have hx : rowVals (featureColsSelected (calCols cols))
      ((featureColsSelected (calCols cols)).map
        (fun c => (c, fillCell
          ((prepOneRow e (calCols cols) (setCalendar tmpl d)).getCell c)))) =
    rowVals (featureColsSelected (calCols cols))
      ((featureColsSelected (calCols cols)).map
        (fun c => (c, fillCell
          ((prepOneRow e' (calCols cols) (setCalendar tmpl d')).getCell c)))) := by
    rw [rowVals_assoc, rowVals_assoc]
    refine List.map_congr_left ?_
    intro c hcmem
    rw [prepOneRow_getCell_det e e' cols tmpl d d' c hcmem hp hw hcal]
  rw [predictStep_eq, predictStep_eq]
  dsimp only
  rw [hx]
  exact ⟨rfl, rfl, rfl⟩

/-- One loop step leaves the encoder dict's transform value of the
template's `product_id` unchanged. -/
theorem obs_stable_product (e : Encoders) (cols : List String) (tmpl : Row) (d : Nat) :
    encValue (prepOneEnc e (calCols cols) (setCalendar tmpl d)) "product_id"
        (tmpl.getCell "product_id").toStr =
      encValue e "product_id" (tmpl.getCell "product_id").toStr := by
  unfold prepOneEnc
  dsimp only
  rw [setCalendar_getCell_product, setCalendar_getCell_weather]
  by_cases h1 : (calCols cols).contains "weather_condition" <;>
    by_cases h2 : (calCols cols).contains "product_id"
  · rw [if_pos h1, if_pos h2, encValue_encUpd_ne _ _ _ _ _ (by decide),
        encValue_encUpd_same]
  · rw [if_pos h1, if_neg h2, encValue_encUpd_ne _ _ _ _ _ (by decide)]
  · rw [if_neg h1, if_pos h2, encValue_encUpd_same]
  · rw [if_neg h1, if_neg h2]

/-- One loop step leaves the encoder dict's transform value of the
template's `weather_condition` unchanged. -/
theorem obs_stable_weather (e : Encoders) (cols : List String) (tmpl : Row) (d : Nat) :
    encValue (prepOneEnc e (calCols cols) (setCalendar tmpl d)) "weather_condition"
        (tmpl.getCell "weather_condition").toStr =
      encValue e "weather_condition" (tmpl.getCell "weather_condition").toStr := by
  unfold prepOneEnc
  dsimp only
  rw [setCalendar_getCell_product, setCalendar_getCell_weather]
  by_cases h1 : (calCols cols).contains "weather_condition" <;>
    by_cases h2 : (calCols cols).contains "product_id"
  · rw [if_pos h1, if_pos h2, encValue_encUpd_same,
        encValue_encUpd_ne _ _ _ _ _ (by decide)]
  · rw [if_pos h1, if_neg h2, encValue_encUpd_same]
  · rw [if_neg h1, if_pos h2, encValue_encUpd_ne _ _ _ _ _ (by decide)]
  · rw [if_neg h1, if_neg h2]

/-- Every output of the forecast loop carries its day as `prediction_date`,
and its point estimate and confidence bounds equal those the step would
produce from the initial encoder dict on that day — the encoder threading
never changes the numbers. -/
theorem predictLoop_fields (st : PredictorState) (m : Model) (cols : List String)
    (tmpl : Row) (pid : String) (acc : Option ℚ) (e0 : Encoders) :
    ∀ (ds : List Nat) (e : Encoders),
      encValue e "product_id" (tmpl.getCell "product_id").toStr =
        encValue e0 "product_id" (tmpl.getCell "product_id").toStr →
      encValue e "weather_condition" (tmpl.getCell "weather_condition").toStr =
        encValue e0 "weather_condition" (tmpl.getCell "weather_condition").toStr →
      ∀ (i : Nat) (ri : PredictionResult),
        (predictLoop (predictStep st m cols tmpl pid acc) e ds)[i]? = some ri →
        ∃ d, ds[i]? = some d ∧ ri.prediction_date = d ∧
          ri.predicted_demand =
            (predictStep st m cols tmpl pid acc e0 d).2.predicted_demand ∧
          ri.confidence_lower =
            (predictStep st m cols tmpl pid acc e0 d).2.confidence_lower ∧
          ri.confidence_upper =
            (predictStep st m cols tmpl pid acc e0 d).2.confidence_upper := by
  intro ds
  induction ds with
  | nil =>
      intro e _ _ i ri hri
      rw [predictLoop] at hri
      simp at hri
  | cons d ds ih =>
      intro e hpe hwe i ri hri
      rw [predictLoop] at hri
      cases i with
      | zero =>
          rw [List.getElem?_cons_zero] at hri
          obtain rfl : (predictStep st m cols tmpl pid acc e d).2 = ri :=
            Option.some.injEq .. ▸ hri
          have hdet := predictStep_fields_det st m cols tmpl pid acc e e0 d d hpe hwe rfl
          exact ⟨d, List.getElem?_cons_zero, rfl, hdet.1, hdet.2.1, hdet.2.2⟩
      | succ k =>
          rw [List.getElem?_cons_succ] at hri
          have hpe' : encValue ((predictStep st m cols tmpl pid acc e d).1) "product_id"
              (tmpl.getCell "product_id").toStr =
              encValue e0 "product_id" (tmpl.getCell "product_id").toStr := by
            rw [predictStep_eq]
            dsimp only
            rw [obs_stable_product]
            exact hpe
          have hwe' : encValue ((predictStep st m cols tmpl pid acc e d).1)
              "weather_condition" (tmpl.getCell "weather_condition").toStr =
              encValue e0 "weather_condition" (tmpl.getCell "weather_condition").toStr := by
            rw [predictStep_eq]
            dsimp only
            rw [obs_stable_weather]
            exact hwe
          obtain ⟨d2, hd2, hrest⟩ := ih _ hpe' hwe' k ri hri
          exact ⟨d2, by rw [List.getElem?_cons_succ]; exact hd2, hrest⟩

/-- C10: within a single `predict` call every day's feature row is
synthesized from the same static template with only the calendar fields
overridden, so any two returned results whose days share (year, month,
day_of_week, quarter) carry identical `predicted_demand`,
`confidence_lower` and `confidence_upper`. -/
theorem predict_equal_calendar_equal_output (st : PredictorState)
    (req : PredictionRequest) (data : Frame) (i j : Nat) (ri rj : PredictionResult)
    (hi : (predict st req data)[i]? = some ri)
    (hj : (predict st req data)[j]? = some rj)
    (hcal : calendarOf ri.prediction_date = calendarOf rj.prediction_date) :
    ri.predicted_demand = rj.predicted_demand ∧
    ri.confidence_lower = rj.confidence_lower ∧
    ri.confidence_upper = rj.confidence_upper := by
  unfold predict at hi hj
  by_cases ht : st.is_trained = false
  · rw [if_pos ht] at hi
    simp at hi
  · rw [if_neg ht] at hi hj
    by_cases he : (data.rows.filter
        (fun r => r.getCell "product_id" = Cell.str req.product_id)).isEmpty
    · rw [if_pos he] at hi
      simp at hi
    · rw [if_neg he] at hi hj
      rcases hm : lookupModel st.models st.active_model with _ | m
      · rw [hm] at hi
        simp at hi
      · rw [hm] at hi hj
        obtain ⟨di, hdi, hdatei, hfi1, hfi2, hfi3⟩ :=
          predictLoop_fields st m data.cols _ req.product_id _ st.label_encoders _
            st.label_encoders rfl rfl i ri hi
        obtain ⟨dj, hdj, hdatej, hfj1, hfj2, hfj3⟩ :=
          predictLoop_fields st m data.cols _ req.product_id _ st.label_encoders _
            st.label_encoders rfl rfl j rj hj
        have hcal2 : calendarOf di = calendarOf dj := by
          rw [← hdatei, ← hdatej]
          exact hcal
        have hstep := predictStep_fields_det st m data.cols
          ((data.rows.filter
            (fun r => r.getCell "product_id" = Cell.str req.product_id)).getLastD [])
          req.product_id (metricsR2 st.model_metrics st.active_model)
          st.label_encoders st.label_encoders di dj rfl rfl hcal2
        exact ⟨hfi1.trans (hstep.1.trans hfj1.symm),
               hfi2.trans (hstep.2.1.trans hfj2.symm),
               hfi3.trans (hstep.2.2.trans hfj3.symm)⟩

/-- Concrete instance of `predict_equal_calendar_equal_output`: in an
eight-day forecast starting Monday 2024-01-01, day 1 and day 8 (Monday
2024-01-08) share (year, month, day_of_week, quarter) and receive identical
point estimates and confidence bounds. -/
theorem predict_equal_calendar_equal_output_witness :
    ((predict posState wReqTen cexData)[0]? =
      some (mkPredictionResult "A" 19723 100 none)) ∧
    ((predict posState wReqTen cexData)[7]? =
      some (mkPredictionResult "A" 19730 100 none)) ∧
    (calendarOf (mkPredictionResult "A" 19723 100 none).prediction_date =
      calendarOf (mkPredictionResult "A" 19730 100 none).prediction_date) ∧
    ((mkPredictionResult "A" 19723 100 none).predicted_demand =
        (mkPredictionResult "A" 19730 100 none).predicted_demand ∧
      (mkPredictionResult "A" 19723 100 none).confidence_lower =
        (mkPredictionResult "A" 19730 100 none).confidence_lower ∧
      (mkPredictionResult "A" 19723 100 none).confidence_upper =
        (mkPredictionResult "A" 19730 100 none).confidence_upper) := by
  have h0 : (predict posState wReqTen cexData)[0]? =
      some (mkPredictionResult "A" 19723 100 none) := rfl
  have h7 : (predict posState wReqTen cexData)[7]? =
      some (mkPredictionResult "A" 19730 100 none) := rfl
  have hc : calendarOf (mkPredictionResult "A" 19723 100 none).prediction_date =
      calendarOf (mkPredictionResult "A" 19730 100 none).prediction_date := by decide
  exact ⟨h0, h7, hc,
    predict_equal_calendar_equal_output posState wReqTen cexData 0 7 _ _ h0 h7 hc⟩

/-- Concrete instance of `standardization_only_linear` on the ten-record
training run: the identity-scaler fit is applied to the training matrix
only, the linear model receives the (identically) transformed matrices, and
the forecast-side facts hold verbatim. -/
theorem standardization_only_linear_witness :
    (train wFits idScalerFit wSplit initState wData =
      (wState, .success "gradient_boosting" wMets 8 2)) ∧
    (wState.scaler = idScalerFit wXtr ∧
      ∃ m1 m2 m3,
        wFits "random_forest" wXtr wYtr = some m1 ∧
        wFits "gradient_boosting" wXtr wYtr = some m2 ∧
        wFits "linear_regression" (wXtr.map (idScalerFit wXtr)) wYtr = some m3 ∧
        wState.models = [("random_forest", m1), ("gradient_boosting", m2),
                         ("linear_regression", m3)] ∧
        wMets = [("random_forest", metricsOf wYte (wXte.map m1)),
                 ("gradient_boosting", metricsOf wYte (wXte.map m2)),
                 ("linear_regression",
                   metricsOf wYte ((wXte.map (idScalerFit wXtr)).map m3))]) ∧
    (∀ (st2 : PredictorState) (req : PredictionRequest) (pdata : Frame) (s1 s2 : Scaler),
      st2.active_model ≠ "linear_regression" →
      predict { st2 with scaler := s1 } req pdata =
        predict { st2 with scaler := s2 } req pdata) ∧
    (∀ (st2 : PredictorState) (req : PredictionRequest) (pdata : Frame),
      st2.active_model = "linear_regression" →
      predict st2 req pdata =
        predict
          { st2 with
            scaler := id
            models := st2.models.map (fun p =>
              if p.1 = "linear_regression" then (p.1, fun x => p.2 (st2.scaler x)) else p) }
          req pdata) := by
  have h : train wFits idScalerFit wSplit initState wData =
      (wState, .success "gradient_boosting" wMets 8 2) :=
    Prod.ext rfl (by with_unfolding_all decide)
  obtain ⟨c1, c2, c3⟩ := standardization_only_linear wFits idScalerFit wSplit initState
    wState wData "gradient_boosting" wMets 8 2 wPairs wXtr wXte wYtr wYte rfl h
    rfl rfl rfl rfl rfl
  exact ⟨h, c1, c2, c3⟩

/-- Concrete instance of `train_selects_highest_r2`: training ten records
with constant-output models scoring R² = −361 (forest), 0 (boosting) and
−81 (linear) selects `gradient_boosting`, and the tie-breaking
characterization holds at those scores. -/
theorem train_selects_highest_r2_witness :
    (initState.models.map Prod.fst = bankNames) ∧
    (train wFits idScalerFit wSplit initState wData =
      (wState, .success "gradient_boosting" wMets 8 2)) ∧
    (wState.active_model = "gradient_boosting" ∧
      ∃ mrf mgb mlr,
        wMets = [("random_forest", mrf), ("gradient_boosting", mgb),
                 ("linear_regression", mlr)] ∧
        (("gradient_boosting" : String) = "random_forest" ↔
          mgb.r2 ≤ mrf.r2 ∧ mlr.r2 ≤ mrf.r2) ∧
        (("gradient_boosting" : String) = "gradient_boosting" ↔
          mrf.r2 < mgb.r2 ∧ mlr.r2 ≤ mgb.r2) ∧
        (("gradient_boosting" : String) = "linear_regression" ↔
          mrf.r2 < mlr.r2 ∧ mgb.r2 < mlr.r2)) :=
  ⟨rfl, Prod.ext rfl (by with_unfolding_all decide),
   train_selects_highest_r2 wFits idScalerFit wSplit initState wState wData
     "gradient_boosting" wMets 8 2 rfl
     (Prod.ext rfl (by with_unfolding_all decide))⟩

end Demo11
